import Mathlib

/-!
Verification of the VM Definition & Provisioning Manager of the pVMs
repository (`src/plugins/PocketVMs/vmmanager.cpp`), against its
natural-language specification.

The C++ code is shallowly embedded:
* the Qt JSON document layer (`QJsonObject`, `QJsonValue`) is modelled by
  `JVal`/`JObj` with the Qt access semantics (`toString`/`toBool` return
  defaults on type mismatch, a missing key behaves like an undefined value);
* `QString::number(int)` / `QString::toInt()` are modelled by executable
  decimal print/parse functions `intToQString` / `qstringToInt` (`toInt`
  returns 0 on parse failure, as in Qt);
* the filesystem is an explicit state (`FS`, a path-to-content association
  list) threaded through the provisioning operations; fallible Qt file
  primitives (`QFile::remove`, `QFile::copy`, `QFile::open`, `QDir::mkpath`,
  the `qemu-img` subprocess) take their environment-dependent success from a
  `QtEnv` oracle, with the deterministic parts (`copy` fails onto an existing
  destination or from a missing source) fixed by the model;
* `qDebug`/`qWarning` logging and the operations performed are reflected in
  an event trace where a claim talks about logging.
-/

namespace PVMs

/-! ## Qt JSON values and objects -/

/-- A JSON value as stored in a `QJsonObject`. The manager only ever stores
strings and booleans; `jnum`/`jnull` keep the payload type general for the
decoding claims. -/
inductive JVal where
  | jstr (s : String)
  | jbool (b : Bool)
  | jnum (n : Int)
  | jnull
  deriving DecidableEq, Repr

/-- `QJsonValue::toString()`: the string content, or the default `""` when
the value is not a string. -/
def JVal.asQString : JVal → String
  | .jstr s => s
  | _ => ""

/-- `QJsonValue::toBool()`: the boolean content, or the default `false` when
the value is not a boolean. -/
def JVal.asQBool : JVal → Bool
  | .jbool b => b
  | _ => false

/-- A `QJsonObject`, as a key/value association list. Only the observations
`contains`/`value` and key-replacing insertion are used by the code. -/
abbrev JObj := List (String × JVal)

/-- `QJsonObject::contains`. -/
def JObj.containsKey (o : JObj) (k : String) : Bool :=
  o.any (fun e => e.1 == k)

/-- `QJsonObject::value`: a missing key yields an undefined value, which
behaves like `jnull` under `toString`/`toBool` (both return their default). -/
def JObj.value (o : JObj) (k : String) : JVal :=
  match o.find? (fun e => e.1 == k) with
  | some e => e.2
  | none => .jnull

/-- `QJsonObject::insert`: replaces any existing entry for the key. -/
def JObj.insertKey (o : JObj) (k : String) (v : JVal) : JObj :=
  (k, v) :: o.filter (fun e => !(e.1 == k))

/-! ## `QString::number` / `QString::toInt`

The integer fields `cores` and `mem` are written with `QString::number(int)`
and read back with `QVariant::toInt()` (`QString::toInt` semantics: on a
non-numeric string the conversion fails and 0 is returned). -/

/-- The decimal digit characters. -/
def digitChar (d : Nat) : Char :=
  match d with
  | 0 => '0'
  | 1 => '1'
  | 2 => '2'
  | 3 => '3'
  | 4 => '4'
  | 5 => '5'
  | 6 => '6'
  | 7 => '7'
  | 8 => '8'
  | _ => '9'

def isDigitChar (c : Char) : Bool := 48 ≤ c.toNat && c.toNat ≤ 57

def digitVal (c : Char) : Nat := c.toNat - 48

/-- Little-endian decimal digits of `n`. -/
def natDigitsRev (n : Nat) : List Char :=
  if n < 10 then [digitChar n]
  else digitChar (n % 10) :: natDigitsRev (n / 10)
termination_by n
decreasing_by
  exact Nat.div_lt_self (by omega) (by omega)

/-- `QString::number` of a non-negative value. -/
def natToQString (n : Nat) : String := ⟨(natDigitsRev n).reverse⟩

/-- `QString::number(int)`: decimal digits, with a leading minus sign for
negative values. -/
def intToQString : Int → String
  | .ofNat n => natToQString n
  | .negSucc n => ⟨'-' :: (natDigitsRev (n + 1)).reverse⟩

/-- The value of a big-endian digit string. -/
def digitsToNat (cs : List Char) : Nat :=
  cs.foldl (fun acc c => acc * 10 + digitVal c) 0

/-- The value of a little-endian digit string. -/
def digitsRevToNat (cs : List Char) : Nat :=
  cs.foldr (fun c acc => acc * 10 + digitVal c) 0

/-- `QString::toInt()` (equivalently `QVariant::toInt()` on a string variant):
an optional sign followed by at least one decimal digit; any other content
makes the conversion fail, and a failed conversion returns 0. -/
def qstringToInt (s : String) : Int :=
  match s.data with
  | [] => 0
  | c :: cs =>
    if c = '-' then
      if cs ≠ [] ∧ cs.all isDigitChar then -(digitsToNat cs : Int) else 0
    else if c = '+' then
      if cs ≠ [] ∧ cs.all isDigitChar then (digitsToNat cs : Int) else 0
    else if (c :: cs).all isDigitChar then (digitsToNat (c :: cs) : Int) else 0

/-! ## The data model: `Machine` and the metadata keys -/

/-- The in-memory VM record (`Machine` in `vmmanager.h`, fields as used by
`vmmanager.cpp`). The creation-draft parameter `hddSize` is passed to
`createVM` separately, since it is not part of the persisted record. -/
structure Machine where
  storage : String
  name : String
  arch : String
  cores : Int
  mem : Int
  hdd : String
  dvd : String
  flash1 : String
  flash2 : String
  useVirglrenderer : Bool
  enableFileSharing : Bool
  externalWindowOnly : Bool
  deriving DecidableEq, Repr

def KEY_STORAGE : String := "storage"
def KEY_DESC : String := "description"
def KEY_ARCH : String := "arch"
def KEY_CORES : String := "cores"
def KEY_MEM : String := "mem"
def KEY_DVD : String := "dvd"
def KEY_HDD : String := "hdd"
def KEY_FLASH1 : String := "flash1"
def KEY_FLASH2 : String := "flash2"
def KEY_ENABLEFILESHARING : String := "enableFileSharing"
def KEY_VIRGLRENDERER : String := "useVirglrenderer"
def KEY_EXTERNAL_WINDOW_ONLY : String := "externalWindowOnly"

def VALID_ARCHES : List String := ["x86_64", "aarch64"]

/-! ## The record codec: `machineToJSON`, `listEntryForJSON`, `fromQml` -/

/-- The bytes handed to `listEntryForJSON`, after the Qt JSON parsing layer:
either the parser reported an error (`malformed`), or the document parsed but
is not an object (`nonObject`), or it is an object. -/
inductive Payload where
  | malformed (msg : String)
  | nonObject
  | obj (o : JObj)
  deriving DecidableEq, Repr

/-- The exceptions thrown by `listEntryForJSON`, classified by the spec's
error taxonomy: `formatError` for a JSON parse error or a non-object
document, `schemaError f` for `"Missing 'f'"`, `validationError` for
`"Invalid architecture"`. -/
inductive DecodeError where
  | formatError (msg : String)
  | schemaError (field : String)
  | validationError
  deriving DecidableEq, Repr

/-- The `QVariantMap` built by `listEntryForJSON`, with one field per key the
function can insert. `externalWindowOnly` is an `Option`: due to the
unreachable statement after the early `return` in the source, the key is
inserted only when present in the payload (`none` = key absent from the
map). -/
structure DecodedVM where
  path : String
  storage : String
  description : String
  arch : String
  cores : String
  mem : String
  hdd : String
  dvd : String
  flash1 : String
  flash2 : String
  useVirglrenderer : Bool
  enableFileSharing : Bool
  externalWindowOnly : Option Bool
  deriving DecidableEq, Repr

/-- `VMManager::listEntryForJSON` (vmmanager.cpp:242-319): validates and
decodes one metadata payload, throwing on the first problem found, in source
order. -/
def listEntryForJSON (path storage : String) (p : Payload) :
    Except DecodeError DecodedVM :=
  match p with
  | .malformed msg => .error (.formatError msg)
  | .nonObject => .error (.formatError "Invalid VM information")
  | .obj o =>
    if !(o.containsKey KEY_DESC) then .error (.schemaError "description")
    else if !(o.containsKey KEY_ARCH) then .error (.schemaError "arch")
    else if !(VALID_ARCHES.contains ((o.value KEY_ARCH).asQString)) then
      .error .validationError
    else if !(o.containsKey KEY_CORES) then .error (.schemaError "cores")
    else if !(o.containsKey KEY_MEM) then .error (.schemaError "mem")
    else if !(o.containsKey KEY_HDD) then .error (.schemaError "hdd")
    else if !(o.containsKey KEY_DVD) then .error (.schemaError "dvd")
    else if !(o.containsKey KEY_FLASH1) then .error (.schemaError "flash1")
    else if !(o.containsKey KEY_FLASH2) then .error (.schemaError "flash2")
    else .ok {
      path := path
      storage := storage
      description := (o.value KEY_DESC).asQString
      arch := (o.value KEY_ARCH).asQString
      cores := (o.value KEY_CORES).asQString
      mem := (o.value KEY_MEM).asQString
      hdd := (o.value KEY_HDD).asQString
      dvd := (o.value KEY_DVD).asQString
      flash1 := (o.value KEY_FLASH1).asQString
      flash2 := (o.value KEY_FLASH2).asQString
      useVirglrenderer :=
        if o.containsKey KEY_VIRGLRENDERER then (o.value KEY_VIRGLRENDERER).asQBool
        else false
      enableFileSharing :=
        if o.containsKey KEY_ENABLEFILESHARING then (o.value KEY_ENABLEFILESHARING).asQBool
        else false
      externalWindowOnly :=
        if o.containsKey KEY_EXTERNAL_WINDOW_ONLY then
          some ((o.value KEY_EXTERNAL_WINDOW_ONLY).asQBool)
        else none }

/-- `VMManager::machineToJSON` (vmmanager.cpp:321-338): serializes a record
into a JSON object; `cores` and `mem` are written as decimal strings, the
three optional booleans are always written. -/
def machineToJSON (m : Machine) : JObj :=
  JObj.insertKey
    (JObj.insertKey
      (JObj.insertKey
        (JObj.insertKey
          (JObj.insertKey
            (JObj.insertKey
              (JObj.insertKey
                (JObj.insertKey
                  (JObj.insertKey
                    (JObj.insertKey
                      (JObj.insertKey ([] : JObj) KEY_DESC (.jstr m.name))
                      KEY_ARCH (.jstr m.arch))
                    KEY_CORES (.jstr (intToQString m.cores)))
                  KEY_MEM (.jstr (intToQString m.mem)))
                KEY_DVD (.jstr m.dvd))
              KEY_HDD (.jstr m.hdd))
            KEY_FLASH1 (.jstr m.flash1))
          KEY_FLASH2 (.jstr m.flash2))
        KEY_VIRGLRENDERER (.jbool m.useVirglrenderer))
      KEY_ENABLEFILESHARING (.jbool m.enableFileSharing))
    KEY_EXTERNAL_WINDOW_ONLY (.jbool m.externalWindowOnly)

/-- `VMManager::fromQml` (vmmanager.cpp:90-109): converts the decoded
`QVariantMap` into an in-memory `Machine`. `QVariant::toInt`/`toBool` of a
missing key operate on a default-constructed variant and yield `0`/`false`;
in particular a missing `externalWindowOnly` key yields `false`. -/
def fromQml (d : DecodedVM) : Machine :=
  { storage := d.storage
    name := d.description
    arch := d.arch
    cores := qstringToInt d.cores
    mem := qstringToInt d.mem
    hdd := d.hdd
    dvd := d.dvd
    flash1 := d.flash1
    flash2 := d.flash2
    useVirglrenderer := d.useVirglrenderer
    enableFileSharing := d.enableFileSharing
    externalWindowOnly := d.externalWindowOnly.getD false }

/-- `VMManager::refreshVMs` (vmmanager.cpp:65-88): scans the discovered
metadata files in order; an entry whose decoding throws is skipped
(`catch (...) { continue; }`) and the scan moves on. -/
def refreshVMs : List (String × String × Payload) → List DecodedVM
  | [] => []
  | (path, storage, p) :: rest =>
    match listEntryForJSON path storage p with
    | .ok vm => vm :: refreshVMs rest
    | .error _ => refreshVMs rest

instance {ε α : Type} [DecidableEq ε] [DecidableEq α] : DecidableEq (Except ε α) :=
  fun x y =>
    match x, y with
    | .ok a, .ok b =>
      if h : a = b then .isTrue (by rw [h])
      else .isFalse (fun hc => h (Except.ok.inj hc))
    | .error a, .error b =>
      if h : a = b then .isTrue (by rw [h])
      else .isFalse (fun hc => h (Except.error.inj hc))
    | .ok _, .error _ => .isFalse (fun hc => Except.noConfusion hc)
    | .error _, .ok _ => .isFalse (fun hc => Except.noConfusion hc)

/-- The required fields, in the order `listEntryForJSON` checks them (the
schema's field order). -/
def requiredFields : List String :=
  ["description", "arch", "cores", "mem", "hdd", "dvd", "flash1", "flash2"]

/-- The first required field missing from a payload, in schema order. -/
def firstMissingField (o : JObj) : Option String :=
  requiredFields.find? (fun k => !(o.containsKey k))

/-! ## The filesystem model and the Qt file primitives -/

/-- Contents of a file in the model: an opaque blob (firmware assets, disk
images) or a serialized JSON document (the metadata file). -/
inductive FData where
  | blob (s : String)
  | jsonDoc (o : JObj)
  deriving DecidableEq, Repr

/-- The filesystem: an association from paths to file contents. -/
abbrev FS := List (String × FData)

/-- `QFile::exists`. -/
def FS.fileExists (fs : FS) (p : String) : Bool :=
  fs.any (fun e => e.1 == p)

/-- The content stored at a path, if any. -/
def FS.read (fs : FS) (p : String) : Option FData :=
  (fs.find? (fun e => e.1 == p)).map (fun e => e.2)

/-- Remove a path (all entries for it). -/
def FS.removeFile (fs : FS) (p : String) : FS :=
  fs.filter (fun e => !(e.1 == p))

/-- (Over)write a path with the given content. -/
def FS.write (fs : FS) (p : String) (d : FData) : FS :=
  (p, d) :: fs.removeFile p

/-- Number of files stored at a path. -/
def FS.countAt (fs : FS) (p : String) : Nat :=
  fs.countP (fun e => e.1 == p)

/-- Environment oracle for the outcomes the code cannot determine itself:
permission/IO failures of the Qt file primitives, and the exit code of the
`qemu-img` subprocess. -/
structure QtEnv where
  /-- `QFile::remove` succeeds on this (existing) path. -/
  removeOk : String → Bool
  /-- `QFile::copy` from src to dst suffers no IO failure beyond the
  model-determined ones (missing source, existing destination). -/
  copyOk : String → String → Bool
  /-- `QFile::open(ReadWrite)` on this path succeeds. -/
  openRWOk : String → Bool
  /-- `QDir::mkpath` succeeds. -/
  mkpathOk : String → Bool
  /-- Exit code of the `qemu-img create` subprocess. -/
  qemuImgExitCode : Int
  /-- Content of the disk image `qemu-img` produces on success, for a
  requested size in GiB. -/
  qemuImgData : Int → FData

/-- `QFile::remove p`: fails (returns `none`) when the path is absent or the
oracle denies the removal. -/
def QtEnv.fileRemove (env : QtEnv) (fs : FS) (p : String) : Option FS :=
  if fs.fileExists p && env.removeOk p then some (fs.removeFile p) else none

/-- `QFile::copy src dst`: fails when the destination already exists (Qt
never overwrites), when the source is missing, or when the oracle reports an
IO failure; otherwise duplicates the source content at the destination. -/
def QtEnv.fileCopy (env : QtEnv) (fs : FS) (src dst : String) : Option FS :=
  if fs.fileExists dst then none
  else
    match fs.read src with
    | none => none
    | some d => if env.copyOk src dst then some (fs.write dst d) else none

/-- The log/action events of a provisioning step: the `qDebug`/`qWarning`
lines it prints and the copy it attempts. -/
inductive Ev where
  | debugRemoving (p : String)
  | warnRemoveFailed (p : String)
  | copyAttempt (src dst : String)
  | warnCopyFailed (src dst : String)
  deriving DecidableEq, Repr

/-- Result of one provisioning step: success flag, filesystem after the
step, machine after the step (the step records the provisioned path in the
machine), and the emitted event trace. -/
structure StepOut where
  ok : Bool
  fs : FS
  machine : Machine
  trace : List Ev
  deriving Repr

/-- Source path of the EFI firmware code asset. -/
def efiFwSrc (pwd arch : String) : String := pwd ++ "/efi/" ++ arch ++ "/code.fd"

/-- Destination path of the EFI firmware code inside a VM directory. -/
def efiFwDst (storage : String) : String := storage ++ "/efi.fd"

/-- The "vars architecture" family of the NVRAM template. -/
def varsArch (arch : String) : String := if arch == "aarch64" then "arm" else "i386"

/-- Source path of the EFI NVRAM template asset. -/
def efiVarsSrc (pwd arch : String) : String :=
  pwd ++ "/share/qemu/edk2-" ++ varsArch arch ++ "-vars.fd"

/-- Destination path of the EFI NVRAM file inside a VM directory. -/
def efiVarsDst (storage : String) : String := storage ++ "/efi_nvram.fd"

/-- `VMManager::resetEFIFirmware` (vmmanager.cpp:194-214): if the
destination exists it is removed first (a failed removal is only logged);
then the copy is attempted; on success `machine->flash1` is set. -/
def resetEFIFirmware (env : QtEnv) (pwd : String) (fs : FS) (m : Machine) : StepOut :=
  let src := efiFwSrc pwd m.arch
  let dst := efiFwDst m.storage
  let pre : FS × List Ev :=
    if fs.fileExists dst then
      match env.fileRemove fs dst with
      | some fs2 => (fs2, [.debugRemoving dst])
      | none => (fs, [.debugRemoving dst, .warnRemoveFailed dst])
    else (fs, [])
  match env.fileCopy pre.1 src dst with
  | none =>
    { ok := false, fs := pre.1, machine := m
      trace := pre.2 ++ [.copyAttempt src dst, .warnCopyFailed src dst] }
  | some fs2 =>
    { ok := true, fs := fs2, machine := { m with flash1 := dst }
      trace := pre.2 ++ [.copyAttempt src dst] }

/-- `VMManager::resetEFINVRAM` (vmmanager.cpp:217-239): same shape as
`resetEFIFirmware`, for the NVRAM template of the vars architecture; on
success `machine->flash2` is set. -/
def resetEFINVRAM (env : QtEnv) (pwd : String) (fs : FS) (m : Machine) : StepOut :=
  let src := efiVarsSrc pwd m.arch
  let dst := efiVarsDst m.storage
  let pre : FS × List Ev :=
    if fs.fileExists dst then
      match env.fileRemove fs dst with
      | some fs2 => (fs2, [.debugRemoving dst])
      | none => (fs, [.debugRemoving dst, .warnRemoveFailed dst])
    else (fs, [])
  match env.fileCopy pre.1 src dst with
  | none =>
    { ok := false, fs := pre.1, machine := m
      trace := pre.2 ++ [.copyAttempt src dst, .warnCopyFailed src dst] }
  | some fs2 =>
    { ok := true, fs := fs2, machine := { m with flash2 := dst }
      trace := pre.2 ++ [.copyAttempt src dst] }

/-! ## The VM store: `createVM`, `editVM` -/

/-- The disk state seen by `createVM`: the files and the set of existing
directories. -/
structure Disk where
  files : FS
  dirs : List String
  deriving Repr

/-- Result of `createVM`. -/
structure CreateOut where
  ok : Bool
  disk : Disk
  machine : Machine
  deriving Repr

/-- The tail of `VMManager::createVM` (vmmanager.cpp:165-189), from the
firmware provisioning steps onwards, once `qemu-img` has succeeded:
`files1` is the filesystem holding the fresh disk image and `m2` the machine
with `storage` and `hdd` already assigned. -/
def createVMafterDisk (env : QtEnv) (pwd vmDirPath : String) (files1 : FS)
    (dirs1 : List String) (m2 : Machine) : CreateOut :=
  let s1 := resetEFIFirmware env pwd files1 m2
  if !s1.ok then
    { ok := false, disk := { files := s1.fs, dirs := dirs1 }, machine := s1.machine }
  else
    let s2 := resetEFINVRAM env pwd s1.fs s1.machine
    if !s2.ok then
      { ok := false, disk := { files := s2.fs, dirs := dirs1 }, machine := s2.machine }
    else
      let jsonPath := vmDirPath ++ "/info.json"
      if !(env.openRWOk jsonPath) then
        { ok := false, disk := { files := s2.fs, dirs := dirs1 }, machine := s2.machine }
      else
        { ok := true
          disk := { files := s2.fs.write jsonPath (.jsonDoc (machineToJSON s2.machine))
                    dirs := dirs1 }
          machine := s2.machine }

/-- `VMManager::createVM` (vmmanager.cpp:111-190): assigns the freshly
generated directory as the machine's storage, creates the directory (the
result of `mkpath` is ignored), runs `qemu-img` to create the HDD image,
then continues with `createVMafterDisk` (firmware steps and metadata). A
`false` return leaves whatever was already created in place. `uuid` is the
generated directory name, `appData`/`pwd` the writable app-data root and the
application directory. -/
def createVM (env : QtEnv) (appData pwd uuid : String) (d : Disk) (m : Machine)
    (hddSize : Int) : CreateOut :=
  let vmDirPath := appData ++ "/" ++ uuid
  let m1 : Machine := { m with storage := vmDirPath }
  let dirs1 :=
    if d.dirs.contains vmDirPath then d.dirs
    else if env.mkpathOk vmDirPath then vmDirPath :: d.dirs else d.dirs
  let hddPath := vmDirPath ++ "/hdd.qcow2"
  if env.qemuImgExitCode ≠ 0 then
    { ok := false, disk := { files := d.files, dirs := dirs1 }, machine := m1 }
  else
    let files1 := d.files.write hddPath (env.qemuImgData hddSize)
    let m2 : Machine := { m1 with hdd := hddPath }
    createVMafterDisk env pwd vmDirPath files1 dirs1 m2

/-- `VMManager::editVM` (vmmanager.cpp:340-359): opens
`<storage>/info.json` for writing (truncating) and rewrites it with the
encoded machine; touches nothing else. Returns the success flag and the
filesystem afterwards. -/
def editVM (env : QtEnv) (fs : FS) (m : Machine) : Bool × FS :=
  let jsonFilePath := m.storage ++ "/info.json"
  if env.openRWOk jsonFilePath then
    (true, fs.write jsonFilePath (.jsonDoc (machineToJSON m)))
  else
    (false, fs)

/-! ## The capability prober: `canVirtualize` -/

/-- The host facts `canVirtualize` consults: `QSysInfo::currentCpuArchitecture()`
and the state of `/dev/kvm`. -/
structure HostEnv where
  currentCpuArch : String
  kvmExists : Bool
  kvmReadable : Bool
  kvmWritable : Bool
  deriving DecidableEq, Repr

/-- `VMManager::canVirtualize` (vmmanager.cpp:367-393): maps the host
spelling `arm64` to `aarch64`, requires `/dev/kvm` to exist and be readable
and writable, and then compares the normalized host architecture with the
target. -/
def canVirtualize (h : HostEnv) (arch : String) : Bool :=
  let machineType := if h.currentCpuArch == "arm64" then "aarch64" else h.currentCpuArch
  if !h.kvmExists then false
  else if !h.kvmReadable then false
  else if !h.kvmWritable then false
  else machineType == arch

/-- The claim's normalization of a host architecture spelling into the
canonical enumeration: `arm64` is the alternate spelling of `aarch64`. -/
def hostNormalize (s : String) : String := if s == "arm64" then "aarch64" else s

/-! ## Concrete fixtures used by witnesses and counterexamples -/

/-- A concrete valid in-memory record, optional booleans at their default. -/
def sampleMachine : Machine :=
  { storage := "/data/vm1"
    name := "test vm"
    arch := "x86_64"
    cores := 2
    mem := 2048
    hdd := "/data/vm1/hdd.qcow2"
    dvd := "/incoming/install.iso"
    flash1 := "/data/vm1/efi.fd"
    flash2 := "/data/vm1/efi_nvram.fd"
    useVirglrenderer := false
    enableFileSharing := false
    externalWindowOnly := false }

/-- A payload with `description` present and `arch` present but invalid,
and the required field `cores` (and the later ones) missing. -/
def archMipsPayload : JObj :=
  [("description", .jstr "d"), ("arch", .jstr "mips")]

/-- A payload with all eight required fields and none of the optional
booleans. -/
def fullPayload : JObj :=
  [("description", .jstr "d"), ("arch", .jstr "aarch64"),
   ("cores", .jstr "2"), ("mem", .jstr "2048"),
   ("hdd", .jstr "/h"), ("dvd", .jstr "/d"),
   ("flash1", .jstr "/f1"), ("flash2", .jstr "/f2")]

/-- `fullPayload` with `cores` removed. -/
def noCoresPayload : JObj :=
  [("description", .jstr "d"), ("arch", .jstr "aarch64"),
   ("mem", .jstr "2048"),
   ("hdd", .jstr "/h"), ("dvd", .jstr "/d"),
   ("flash1", .jstr "/f1"), ("flash2", .jstr "/f2")]

/-- An environment in which every Qt file primitive succeeds and `qemu-img`
exits 0. -/
def okEnv : QtEnv :=
  { removeOk := fun _ => true
    copyOk := fun _ _ => true
    openRWOk := fun _ => true
    mkpathOk := fun _ => true
    qemuImgExitCode := 0
    qemuImgData := fun _ => .blob "qcow2-image" }

/-- `okEnv`, but the `qemu-img` subprocess fails. -/
def qemuFailEnv : QtEnv := { okEnv with qemuImgExitCode := 1 }

/-- `okEnv`, but `QFile::remove` always fails. -/
def removeFailEnv : QtEnv := { okEnv with removeOk := fun _ => false }

/-- A filesystem holding the two firmware source assets for `x86_64` under
application directory `/app`. -/
def assetsFS : FS :=
  [(efiFwSrc "/app" "x86_64", .blob "fw-code"),
   (efiVarsSrc "/app" "x86_64", .blob "nvram-template")]

/-- `sampleMachine` relocated to a fresh VM directory, as `createVM` does. -/
def sampleDraft : Machine := { sampleMachine with storage := "/data/uuid-1" }

/-- A host with a usable `/dev/kvm` and an `arm64` CPU spelling. -/
def armHost : HostEnv :=
  { currentCpuArch := "arm64", kvmExists := true
    kvmReadable := true, kvmWritable := true }

/-- The decoded form of `fullPayload` (no optional boolean keys present). -/
def fullDecoded : DecodedVM :=
  { path := "p", storage := "s", description := "d", arch := "aarch64",
    cores := "2", mem := "2048", hdd := "/h", dvd := "/d",
    flash1 := "/f1", flash2 := "/f2",
    useVirglrenderer := false, enableFileSharing := false,
    externalWindowOnly := none }

/-- An `aarch64` host on which `/dev/kvm` does not exist. -/
def noKvmHost : HostEnv :=
  { currentCpuArch := "aarch64", kvmExists := false
    kvmReadable := true, kvmWritable := true }

/-- `fullPayload` with the invalid architecture `mips`. -/
def fullMipsPayload : JObj :=
  [("description", .jstr "d"), ("arch", .jstr "mips"),
   ("cores", .jstr "2"), ("mem", .jstr "2048"),
   ("hdd", .jstr "/h"), ("dvd", .jstr "/d"),
   ("flash1", .jstr "/f1"), ("flash2", .jstr "/f2")]

/-- A scan list with one valid entry, one empty (unparseable) metadata file,
and another valid entry. -/
def scanGood1 : String × String × Payload :=
  ("/root/a/info.json", "/root/a", .obj fullPayload)

def scanGood2 : String × String × Payload :=
  ("/root/c/info.json", "/root/c", .obj fullPayload)

/-- The entry for a directory whose `info.json` is empty: the JSON parser
reports an error, so decoding throws before any field check. -/
def scanEmpty : String × String × Payload :=
  ("/root/b/info.json", "/root/b", .malformed "illegal value")

/-! ## Supporting lemmas for the embedding -/

theorem JObj.find?_filterKey {l : JObj} {k k' : String} (h : k' ≠ k) :
    (l.filter (fun e => !(e.1 == k))).find? (fun e => e.1 == k')
      = l.find? (fun e => e.1 == k') := by
  induction l with
  | nil => rfl
  | cons e t ih =>
    by_cases hek : e.1 = k
    · have h1 : (e.1 == k') = false := by
        simp only [beq_eq_false_iff_ne, ne_eq, hek]
        exact Ne.symm h
      have h2 : (e.1 == k) = true := by simp [hek]
      simp [List.filter_cons, List.find?_cons, h1, h2, ih]
    · have h2 : (e.1 == k) = false := by simp [hek]
      by_cases hek2 : e.1 = k'
      · have h1 : (e.1 == k') = true := by simp [hek2]
        simp [List.filter_cons, List.find?_cons, h1, h2]
      · have h1 : (e.1 == k') = false := by simp [hek2]
        simp [List.filter_cons, List.find?_cons, h1, h2, ih]

theorem JObj.any_filterKey {l : JObj} {k k' : String} (h : k' ≠ k) :
    (l.filter (fun e => !(e.1 == k))).any (fun e => e.1 == k')
      = l.any (fun e => e.1 == k') := by
  induction l with
  | nil => rfl
  | cons e t ih =>
    by_cases hek : e.1 = k
    · have h1 : (e.1 == k') = false := by
        simp only [beq_eq_false_iff_ne, ne_eq, hek]
        exact Ne.symm h
      have h2 : (e.1 == k) = true := by simp [hek]
      simp [List.filter_cons, h1, h2, ih]
    · have h2 : (e.1 == k) = false := by simp [hek]
      simp [List.filter_cons, h2, ih]

@[simp] theorem JObj.containsKey_insertKey (o : JObj) (k k' : String) (v : JVal) :
    (o.insertKey k v).containsKey k' = (k' == k || o.containsKey k') := by
  by_cases h : k' = k
  · subst h
    simp [insertKey, containsKey]
  · have h1 : (k == k') = false := by simp [Ne.symm h]
    have h2 : (k' == k) = false := by simp [h]
    simp [insertKey, containsKey, any_filterKey h, h1, h2]

@[simp] theorem JObj.value_insertKey (o : JObj) (k k' : String) (v : JVal) :
    (o.insertKey k v).value k' = if k' = k then v else o.value k' := by
  by_cases h : k' = k
  · subst h
    simp [insertKey, value, List.find?_cons]
  · have h1 : (k == k') = false := by simp [Ne.symm h]
    simp [insertKey, value, List.find?_cons, h1, find?_filterKey h, h]

theorem assoc_find?_filterKey {α : Type} {l : List (String × α)} {k k' : String}
    (h : k' ≠ k) :
    (l.filter (fun e => !(e.1 == k))).find? (fun e => e.1 == k')
      = l.find? (fun e => e.1 == k') := by
  induction l with
  | nil => rfl
  | cons e t ih =>
    by_cases hek : e.1 = k
    · have h1 : (e.1 == k') = false := by
        simp only [beq_eq_false_iff_ne, ne_eq, hek]
        exact Ne.symm h
      have h2 : (e.1 == k) = true := by simp [hek]
      simp [List.filter_cons, List.find?_cons, h1, h2, ih]
    · have h2 : (e.1 == k) = false := by simp [hek]
      by_cases hek2 : e.1 = k'
      · have h1 : (e.1 == k') = true := by simp [hek2]
        simp [List.filter_cons, List.find?_cons, h1, h2]
      · have h1 : (e.1 == k') = false := by simp [hek2]
        simp [List.filter_cons, List.find?_cons, h1, h2, ih]

theorem assoc_any_filterKey {α : Type} {l : List (String × α)} {k k' : String}
    (h : k' ≠ k) :
    (l.filter (fun e => !(e.1 == k))).any (fun e => e.1 == k')
      = l.any (fun e => e.1 == k') := by
  induction l with
  | nil => rfl
  | cons e t ih =>
    by_cases hek : e.1 = k
    · have h1 : (e.1 == k') = false := by
        simp only [beq_eq_false_iff_ne, ne_eq, hek]
        exact Ne.symm h
      have h2 : (e.1 == k) = true := by simp [hek]
      simp [List.filter_cons, h1, h2, ih]
    · have h2 : (e.1 == k) = false := by simp [hek]
      simp [List.filter_cons, h2, ih]

theorem FS.read_write_self (fs : FS) (p : String) (d : FData) :
    (fs.write p d).read p = some d := by
  simp [FS.write, FS.read, List.find?_cons]

theorem FS.read_write_ne (fs : FS) (p : String) (d : FData) {q : String} (h : q ≠ p) :
    (fs.write p d).read q = fs.read q := by
  have h1 : (p == q) = false := by simp [Ne.symm h]
  simp only [FS.write, FS.read, FS.removeFile, List.find?_cons, h1]
  rw [assoc_find?_filterKey h]

theorem FS.fileExists_write_self (fs : FS) (p : String) (d : FData) :
    (fs.write p d).fileExists p = true := by
  simp [FS.write, FS.fileExists]

theorem FS.fileExists_write_ne (fs : FS) (p : String) (d : FData) {q : String}
    (h : q ≠ p) : (fs.write p d).fileExists q = fs.fileExists q := by
  have h1 : (p == q) = false := by simp [Ne.symm h]
  simp only [FS.write, FS.fileExists, FS.removeFile, List.any_cons, h1, Bool.false_or]
  rw [assoc_any_filterKey h]

theorem FS.fileExists_removeFile_self (fs : FS) (p : String) :
    (fs.removeFile p).fileExists p = false := by
  simp only [FS.removeFile, FS.fileExists]
  rw [List.any_eq_false]
  intro e he
  simp only [List.mem_filter] at he
  simpa using he.2

theorem FS.read_removeFile_ne (fs : FS) (p : String) {q : String} (h : q ≠ p) :
    (fs.removeFile p).read q = fs.read q := by
  simp only [FS.removeFile, FS.read]
  rw [assoc_find?_filterKey h]

theorem FS.fileExists_removeFile_ne (fs : FS) (p : String) {q : String} (h : q ≠ p) :
    (fs.removeFile p).fileExists q = fs.fileExists q := by
  simp only [FS.removeFile, FS.fileExists]
  rw [assoc_any_filterKey h]

theorem FS.countAt_write_self (fs : FS) (p : String) (d : FData) :
    (fs.write p d).countAt p = 1 := by
  simp only [FS.write, FS.countAt, FS.removeFile]
  rw [List.countP_cons]
  have hz : (fs.filter (fun e => !(e.1 == p))).countP (fun e => e.1 == p) = 0 := by
    rw [List.countP_eq_zero]
    intro e he
    simp only [List.mem_filter] at he
    simpa using he.2
  rw [hz]
  simp

theorem FS.countAt_write_ne (fs : FS) (p : String) (d : FData) {q : String}
    (h : q ≠ p) : (fs.write p d).countAt q = fs.countAt q := by
  have h1 : ((p, d).1 == q) = false := by simp [Ne.symm h]
  simp only [FS.write, FS.countAt, FS.removeFile]
  rw [List.countP_cons, h1]
  simp only [Bool.false_eq_true, if_false, Nat.add_zero]
  rw [List.countP_filter]
  apply List.countP_congr
  intro e he
  by_cases heq : e.1 = q
  · simp [heq, h]
  · simp [heq]

theorem FS.countAt_removeFile_ne (fs : FS) (p : String) {q : String} (h : q ≠ p) :
    (fs.removeFile p).countAt q = fs.countAt q := by
  simp only [FS.removeFile, FS.countAt]
  rw [List.countP_filter]
  apply List.countP_congr
  intro e he
  by_cases heq : e.1 = q
  · simp [heq, h]
  · simp [heq]

theorem resetEFIFirmware_done (env : QtEnv) (pwd : String) (fs : FS) (m : Machine)
    {c : FData}
    (hdst : fs.fileExists (efiFwDst m.storage) = false)
    (hsrc : fs.read (efiFwSrc pwd m.arch) = some c)
    (hcopy : env.copyOk (efiFwSrc pwd m.arch) (efiFwDst m.storage) = true) :
    resetEFIFirmware env pwd fs m =
      { ok := true, fs := fs.write (efiFwDst m.storage) c
        machine := { m with flash1 := efiFwDst m.storage }
        trace := [.copyAttempt (efiFwSrc pwd m.arch) (efiFwDst m.storage)] } := by
  simp [resetEFIFirmware, QtEnv.fileCopy, hdst, hsrc, hcopy]

theorem resetEFIFirmware_failed (env : QtEnv) (pwd : String) (fs : FS) (m : Machine)
    (hdst : fs.fileExists (efiFwDst m.storage) = false)
    (hfail : fs.read (efiFwSrc pwd m.arch) = none ∨
      env.copyOk (efiFwSrc pwd m.arch) (efiFwDst m.storage) = false) :
    resetEFIFirmware env pwd fs m =
      { ok := false, fs := fs, machine := m
        trace := [.copyAttempt (efiFwSrc pwd m.arch) (efiFwDst m.storage),
                  .warnCopyFailed (efiFwSrc pwd m.arch) (efiFwDst m.storage)] } := by
  rcases hfail with h | h
  · simp [resetEFIFirmware, QtEnv.fileCopy, hdst, h]
  · cases hr : fs.read (efiFwSrc pwd m.arch) with
    | none => simp [resetEFIFirmware, QtEnv.fileCopy, hdst, hr]
    | some c => simp [resetEFIFirmware, QtEnv.fileCopy, hdst, hr, h]

theorem resetEFIFirmware_rerun (env : QtEnv) (pwd : String) (fs : FS) (m : Machine)
    {c : FData}
    (hdst : fs.fileExists (efiFwDst m.storage) = true)
    (hrem : env.removeOk (efiFwDst m.storage) = true)
    (hsrc : (fs.removeFile (efiFwDst m.storage)).read (efiFwSrc pwd m.arch) = some c)
    (hcopy : env.copyOk (efiFwSrc pwd m.arch) (efiFwDst m.storage) = true) :
    resetEFIFirmware env pwd fs m =
      { ok := true
        fs := (fs.removeFile (efiFwDst m.storage)).write (efiFwDst m.storage) c
        machine := { m with flash1 := efiFwDst m.storage }
        trace := [.debugRemoving (efiFwDst m.storage),
                  .copyAttempt (efiFwSrc pwd m.arch) (efiFwDst m.storage)] } := by
  simp [resetEFIFirmware, QtEnv.fileRemove, QtEnv.fileCopy, hdst, hrem, hsrc, hcopy,
    FS.fileExists_removeFile_self]

theorem resetEFINVRAM_done (env : QtEnv) (pwd : String) (fs : FS) (m : Machine)
    {c : FData}
    (hdst : fs.fileExists (efiVarsDst m.storage) = false)
    (hsrc : fs.read (efiVarsSrc pwd m.arch) = some c)
    (hcopy : env.copyOk (efiVarsSrc pwd m.arch) (efiVarsDst m.storage) = true) :
    resetEFINVRAM env pwd fs m =
      { ok := true, fs := fs.write (efiVarsDst m.storage) c
        machine := { m with flash2 := efiVarsDst m.storage }
        trace := [.copyAttempt (efiVarsSrc pwd m.arch) (efiVarsDst m.storage)] } := by
  simp [resetEFINVRAM, QtEnv.fileCopy, hdst, hsrc, hcopy]

theorem resetEFINVRAM_failed (env : QtEnv) (pwd : String) (fs : FS) (m : Machine)
    (hdst : fs.fileExists (efiVarsDst m.storage) = false)
    (hfail : fs.read (efiVarsSrc pwd m.arch) = none ∨
      env.copyOk (efiVarsSrc pwd m.arch) (efiVarsDst m.storage) = false) :
    resetEFINVRAM env pwd fs m =
      { ok := false, fs := fs, machine := m
        trace := [.copyAttempt (efiVarsSrc pwd m.arch) (efiVarsDst m.storage),
                  .warnCopyFailed (efiVarsSrc pwd m.arch) (efiVarsDst m.storage)] } := by
  rcases hfail with h | h
  · simp [resetEFINVRAM, QtEnv.fileCopy, hdst, h]
  · cases hr : fs.read (efiVarsSrc pwd m.arch) with
    | none => simp [resetEFINVRAM, QtEnv.fileCopy, hdst, hr]
    | some c => simp [resetEFINVRAM, QtEnv.fileCopy, hdst, hr, h]

theorem resetEFINVRAM_rerun (env : QtEnv) (pwd : String) (fs : FS) (m : Machine)
    {c : FData}
    (hdst : fs.fileExists (efiVarsDst m.storage) = true)
    (hrem : env.removeOk (efiVarsDst m.storage) = true)
    (hsrc : (fs.removeFile (efiVarsDst m.storage)).read (efiVarsSrc pwd m.arch) = some c)
    (hcopy : env.copyOk (efiVarsSrc pwd m.arch) (efiVarsDst m.storage) = true) :
    resetEFINVRAM env pwd fs m =
      { ok := true
        fs := (fs.removeFile (efiVarsDst m.storage)).write (efiVarsDst m.storage) c
        machine := { m with flash2 := efiVarsDst m.storage }
        trace := [.debugRemoving (efiVarsDst m.storage),
                  .copyAttempt (efiVarsSrc pwd m.arch) (efiVarsDst m.storage)] } := by
  simp [resetEFINVRAM, QtEnv.fileRemove, QtEnv.fileCopy, hdst, hrem, hsrc, hcopy,
    FS.fileExists_removeFile_self]

theorem createVM_qemuOk (env : QtEnv) (appData pwd uuid : String) (d : Disk)
    (m : Machine) (hddSize : Int) (hq : env.qemuImgExitCode = 0) :
    createVM env appData pwd uuid d m hddSize =
      createVMafterDisk env pwd (appData ++ "/" ++ uuid)
        (d.files.write (appData ++ "/" ++ uuid ++ "/hdd.qcow2") (env.qemuImgData hddSize))
        (if d.dirs.contains (appData ++ "/" ++ uuid) then d.dirs
         else if env.mkpathOk (appData ++ "/" ++ uuid) then
           (appData ++ "/" ++ uuid) :: d.dirs
         else d.dirs)
        { m with storage := appData ++ "/" ++ uuid,
                 hdd := appData ++ "/" ++ uuid ++ "/hdd.qcow2" } := by
  simp [createVM, hq]

theorem createVMafterDisk_dirs (env : QtEnv) (pwd vmDir : String) (f1 : FS)
    (dirs1 : List String) (m2 : Machine) :
    (createVMafterDisk env pwd vmDir f1 dirs1 m2).disk.dirs = dirs1 := by
  simp only [createVMafterDisk]
  split
  · rfl
  · split
    · rfl
    · split
      · rfl
      · rfl

theorem createVMafterDisk_fwFail (env : QtEnv) (pwd vmDir : String) (f1 : FS)
    (dirs1 : List String) (m2 : Machine)
    (h : (resetEFIFirmware env pwd f1 m2).ok = false) :
    createVMafterDisk env pwd vmDir f1 dirs1 m2 =
      { ok := false,
        disk := { files := (resetEFIFirmware env pwd f1 m2).fs, dirs := dirs1 },
        machine := (resetEFIFirmware env pwd f1 m2).machine } := by
  simp [createVMafterDisk, h]

theorem createVMafterDisk_nvFail (env : QtEnv) (pwd vmDir : String) (f1 : FS)
    (dirs1 : List String) (m2 : Machine)
    (h1 : (resetEFIFirmware env pwd f1 m2).ok = true)
    (h2 : (resetEFINVRAM env pwd (resetEFIFirmware env pwd f1 m2).fs
      (resetEFIFirmware env pwd f1 m2).machine).ok = false) :
    createVMafterDisk env pwd vmDir f1 dirs1 m2 =
      { ok := false,
        disk := { files := (resetEFINVRAM env pwd (resetEFIFirmware env pwd f1 m2).fs
                    (resetEFIFirmware env pwd f1 m2).machine).fs,
                  dirs := dirs1 },
        machine := (resetEFINVRAM env pwd (resetEFIFirmware env pwd f1 m2).fs
          (resetEFIFirmware env pwd f1 m2).machine).machine } := by
  simp [createVMafterDisk, h1, h2]

theorem createVMafterDisk_openFail (env : QtEnv) (pwd vmDir : String) (f1 : FS)
    (dirs1 : List String) (m2 : Machine)
    (h1 : (resetEFIFirmware env pwd f1 m2).ok = true)
    (h2 : (resetEFINVRAM env pwd (resetEFIFirmware env pwd f1 m2).fs
      (resetEFIFirmware env pwd f1 m2).machine).ok = true)
    (h3 : env.openRWOk (vmDir ++ "/info.json") = false) :
    createVMafterDisk env pwd vmDir f1 dirs1 m2 =
      { ok := false,
        disk := { files := (resetEFINVRAM env pwd (resetEFIFirmware env pwd f1 m2).fs
                    (resetEFIFirmware env pwd f1 m2).machine).fs,
                  dirs := dirs1 },
        machine := (resetEFINVRAM env pwd (resetEFIFirmware env pwd f1 m2).fs
          (resetEFIFirmware env pwd f1 m2).machine).machine } := by
  simp [createVMafterDisk, h1, h2, h3]

theorem createVMafterDisk_allOk (env : QtEnv) (pwd vmDir : String) (f1 : FS)
    (dirs1 : List String) (m2 : Machine)
    (h1 : (resetEFIFirmware env pwd f1 m2).ok = true)
    (h2 : (resetEFINVRAM env pwd (resetEFIFirmware env pwd f1 m2).fs
      (resetEFIFirmware env pwd f1 m2).machine).ok = true)
    (h3 : env.openRWOk (vmDir ++ "/info.json") = true) :
    createVMafterDisk env pwd vmDir f1 dirs1 m2 =
      { ok := true,
        disk := { files := (resetEFINVRAM env pwd (resetEFIFirmware env pwd f1 m2).fs
                    (resetEFIFirmware env pwd f1 m2).machine).fs.write
                      (vmDir ++ "/info.json")
                      (.jsonDoc (machineToJSON (resetEFINVRAM env pwd
                        (resetEFIFirmware env pwd f1 m2).fs
                        (resetEFIFirmware env pwd f1 m2).machine).machine)),
                  dirs := dirs1 },
        machine := (resetEFINVRAM env pwd (resetEFIFirmware env pwd f1 m2).fs
          (resetEFIFirmware env pwd f1 m2).machine).machine } := by
  simp [createVMafterDisk, h1, h2, h3]

theorem string_append_ne {s a b : String} (h : a ≠ b) : s ++ a ≠ s ++ b := by
  intro hc
  apply h
  have hd := congrArg String.data hc
  simp only [String.data_append] at hd
  have h2 := List.append_cancel_left hd
  cases a
  cases b
  exact congrArg String.mk h2

theorem digitVal_digitChar {d : Nat} (h : d < 10) : digitVal (digitChar d) = d := by
  interval_cases d <;> decide

theorem isDigitChar_digitChar {d : Nat} (h : d < 10) : isDigitChar (digitChar d) = true := by
  interval_cases d <;> decide

theorem natDigitsRev_ne_nil (n : Nat) : natDigitsRev n ≠ [] := by
  rw [natDigitsRev]
  by_cases h : n < 10 <;> simp [h]

theorem all_isDigitChar_natDigitsRev (n : Nat) :
    (natDigitsRev n).all isDigitChar = true := by
  induction n using Nat.strong_induction_on with
  | _ n ih =>
    rw [natDigitsRev]
    by_cases h : n < 10
    · simp [h, isDigitChar_digitChar h]
    · have hlt : n / 10 < n := Nat.div_lt_self (by omega) (by omega)
      simp [h, isDigitChar_digitChar (Nat.mod_lt n (by omega)), ih _ hlt]

theorem digitsRevToNat_natDigitsRev (n : Nat) :
    digitsRevToNat (natDigitsRev n) = n := by
  induction n using Nat.strong_induction_on with
  | _ n ih =>
    rw [natDigitsRev]
    by_cases h : n < 10
    · simp [h, digitsRevToNat, digitVal_digitChar h]
    · have hlt : n / 10 < n := Nat.div_lt_self (by omega) (by omega)
      have hm : n % 10 < 10 := Nat.mod_lt n (by omega)
      simp only [h, if_false, digitsRevToNat, List.foldr_cons]
      have := ih _ hlt
      simp only [digitsRevToNat] at this
      rw [this, digitVal_digitChar hm]
      omega

theorem digitsToNat_reverse (cs : List Char) :
    digitsToNat cs.reverse = digitsRevToNat cs := by
  simp [digitsToNat, digitsRevToNat, List.foldl_reverse]

/-- Round-trip of the textual integer encoding: parsing the decimal form
printed by `QString::number` recovers the integer. -/
theorem qstringToInt_intToQString (n : Int) : qstringToInt (intToQString n) = n := by
  cases n with
  | ofNat m =>
    have hne := natDigitsRev_ne_nil m
    have hall := all_isDigitChar_natDigitsRev m
    simp only [intToQString, natToQString, qstringToInt]
    cases hrev : (natDigitsRev m).reverse with
    | nil =>
      exact absurd (by simpa using congrArg List.reverse hrev) hne
    | cons c cs =>
      have hmem : c ∈ natDigitsRev m := by
        have : c ∈ (natDigitsRev m).reverse := by rw [hrev]; exact List.mem_cons_self c cs
        simpa using this
      have hdig : isDigitChar c = true := by
        have := List.all_eq_true.mp hall
        exact this c hmem
      have hcm : c ≠ '-' := by
        intro hc
        rw [hc] at hdig
        exact absurd hdig (by decide)
      have hcp : c ≠ '+' := by
        intro hc
        rw [hc] at hdig
        exact absurd hdig (by decide)
      have halld : (c :: cs).all isDigitChar = true := by
        rw [← hrev]
        simpa using hall
      simp only [hcm, hcp, if_false, halld, if_true, ite_true, ite_false]
      rw [← hrev, digitsToNat_reverse, digitsRevToNat_natDigitsRev]
      rfl
  | negSucc m =>
    have hne := natDigitsRev_ne_nil (m + 1)
    have hall := all_isDigitChar_natDigitsRev (m + 1)
    simp only [intToQString, qstringToInt]
    have hnil : (natDigitsRev (m + 1)).reverse ≠ [] := by
      intro hc
      exact absurd (by simpa using congrArg List.reverse hc) hne
    have halld : ((natDigitsRev (m + 1)).reverse).all isDigitChar = true := by
      simpa using hall
    simp only [if_pos rfl, hnil, ne_eq, not_false_iff, halld, and_self, if_true, ite_true]
    rw [digitsToNat_reverse, digitsRevToNat_natDigitsRev]
    rfl

/-! ## The claims -/

/-- Claim C1: for every valid VM Record `r` (optional booleans at their
default `false`), decoding the JSON produced by encoding `r` succeeds and
reproduces `r` exactly, including the default-false optional booleans. -/
theorem C1_decode_encode_roundtrip (m : Machine) (path : String)
    (harch : VALID_ARCHES.contains m.arch = true)
    (hvirgl : m.useVirglrenderer = false)
    (hshare : m.enableFileSharing = false)
    (hext : m.externalWindowOnly = false) :
    ∃ d, listEntryForJSON path m.storage (.obj (machineToJSON m)) = .ok d
      ∧ fromQml d = m := by
  have hroundc := qstringToInt_intToQString m.cores
  have hroundm := qstringToInt_intToQString m.mem
  have hmem : m.arch ∈ VALID_ARCHES := by simpa using harch
  simp [listEntryForJSON, machineToJSON, JObj.containsKey_insertKey,
    JObj.value_insertKey, KEY_DESC, KEY_ARCH, KEY_CORES, KEY_MEM, KEY_DVD, KEY_HDD,
    KEY_FLASH1, KEY_FLASH2, KEY_VIRGLRENDERER, KEY_ENABLEFILESHARING,
    KEY_EXTERNAL_WINDOW_ONLY, JVal.asQString, JVal.asQBool, fromQml,
    hmem, hroundc, hroundm]

/-- Witness for C1 at a concrete machine. -/
theorem C1_decode_encode_roundtrip_witness :
    VALID_ARCHES.contains sampleMachine.arch = true ∧
    sampleMachine.useVirglrenderer = false ∧
    sampleMachine.enableFileSharing = false ∧
    sampleMachine.externalWindowOnly = false ∧
    ∃ d, listEntryForJSON "/data/vm1/info.json" sampleMachine.storage
        (.obj (machineToJSON sampleMachine)) = .ok d ∧ fromQml d = sampleMachine :=
  ⟨by decide, by decide, by decide, by decide,
   C1_decode_encode_roundtrip sampleMachine "/data/vm1/info.json"
     (by decide) (by decide) (by decide) (by decide)⟩

/-- Claim C2 counterexample: `archMipsPayload` is missing the required field
`cores` (its first missing required field), yet decoding fails with
`validationError` — not with a `SchemaError` naming `cores` — because the
invalid `arch` value is checked before the `cores` presence check. -/
theorem C2_first_missing_counterexample :
    (∃ k, k ∈ requiredFields ∧ archMipsPayload.containsKey k = false) ∧
    firstMissingField archMipsPayload = some "cores" ∧
    listEntryForJSON "p" "s" (.obj archMipsPayload) = .error .validationError ∧
    listEntryForJSON "p" "s" (.obj archMipsPayload) ≠ .error (.schemaError "cores") := by
  refine ⟨⟨"cores", by decide, by decide⟩, by decide, by decide, by decide⟩

/-- Claim C2 (amended): for every well-formed payload missing at least one
required field, decoding fails with a `SchemaError` naming the first missing
required field in schema order — provided `arch`, when present, holds a
valid architecture (otherwise the `ValidationError` for `arch` takes
precedence over missing fields that come after `arch`). No partial record is
produced: the result is an error. -/
theorem C2_schema_error_first_missing (path storage : String) (o : JObj)
    (hmiss : ∃ k, k ∈ requiredFields ∧ o.containsKey k = false)
    (harch : o.containsKey KEY_ARCH = false ∨
      VALID_ARCHES.contains ((o.value KEY_ARCH).asQString) = true) :
    ∃ f, firstMissingField o = some f ∧
      listEntryForJSON path storage (.obj o) = .error (.schemaError f) := by
  cases h1 : o.containsKey "description" with
  | false =>
    exact ⟨"description", by simp [firstMissingField, requiredFields, h1],
      by simp [listEntryForJSON, KEY_DESC, h1]⟩
  | true =>
  cases h2 : o.containsKey "arch" with
  | false =>
    exact ⟨"arch", by simp [firstMissingField, requiredFields, h1, h2],
      by simp [listEntryForJSON, KEY_DESC, KEY_ARCH, h1, h2]⟩
  | true =>
  have hvalid : (o.value "arch").asQString ∈ VALID_ARCHES := by
    rcases harch with h | h
    · rw [KEY_ARCH] at h
      rw [h2] at h
      cases h
    · rw [KEY_ARCH] at h
      simpa using h
  cases h3 : o.containsKey "cores" with
  | false =>
    exact ⟨"cores", by simp [firstMissingField, requiredFields, h1, h2, h3],
      by simp [listEntryForJSON, KEY_DESC, KEY_ARCH, KEY_CORES, h1, h2, h3, hvalid]⟩
  | true =>
  cases h4 : o.containsKey "mem" with
  | false =>
    exact ⟨"mem", by simp [firstMissingField, requiredFields, h1, h2, h3, h4],
      by simp [listEntryForJSON, KEY_DESC, KEY_ARCH, KEY_CORES, KEY_MEM,
        h1, h2, h3, h4, hvalid]⟩
  | true =>
  cases h5 : o.containsKey "hdd" with
  | false =>
    exact ⟨"hdd", by simp [firstMissingField, requiredFields, h1, h2, h3, h4, h5],
      by simp [listEntryForJSON, KEY_DESC, KEY_ARCH, KEY_CORES, KEY_MEM, KEY_HDD,
        h1, h2, h3, h4, h5, hvalid]⟩
  | true =>
  cases h6 : o.containsKey "dvd" with
  | false =>
    exact ⟨"dvd", by simp [firstMissingField, requiredFields, h1, h2, h3, h4, h5, h6],
      by simp [listEntryForJSON, KEY_DESC, KEY_ARCH, KEY_CORES, KEY_MEM, KEY_HDD,
        KEY_DVD, h1, h2, h3, h4, h5, h6, hvalid]⟩
  | true =>
  cases h7 : o.containsKey "flash1" with
  | false =>
    exact ⟨"flash1", by simp [firstMissingField, requiredFields, h1, h2, h3, h4, h5, h6, h7],
      by simp [listEntryForJSON, KEY_DESC, KEY_ARCH, KEY_CORES, KEY_MEM, KEY_HDD,
        KEY_DVD, KEY_FLASH1, h1, h2, h3, h4, h5, h6, h7, hvalid]⟩
  | true =>
  cases h8 : o.containsKey "flash2" with
  | false =>
    exact ⟨"flash2", by simp [firstMissingField, requiredFields, h1, h2, h3, h4, h5, h6, h7, h8],
      by simp [listEntryForJSON, KEY_DESC, KEY_ARCH, KEY_CORES, KEY_MEM, KEY_HDD,
        KEY_DVD, KEY_FLASH1, KEY_FLASH2, h1, h2, h3, h4, h5, h6, h7, h8, hvalid]⟩
  | true =>
  exfalso
  rcases hmiss with ⟨k, hk, hkf⟩
  simp only [requiredFields, List.mem_cons, List.not_mem_nil, or_false] at hk
  rcases hk with rfl | rfl | rfl | rfl | rfl | rfl | rfl | rfl
  · rw [h1] at hkf; cases hkf
  · rw [h2] at hkf; cases hkf
  · rw [h3] at hkf; cases hkf
  · rw [h4] at hkf; cases hkf
  · rw [h5] at hkf; cases hkf
  · rw [h6] at hkf; cases hkf
  · rw [h7] at hkf; cases hkf
  · rw [h8] at hkf; cases hkf

/-- Witness for the amended C2 at a concrete payload missing `cores` with a
valid `arch`. -/
theorem C2_schema_error_first_missing_witness :
    ∃ f, firstMissingField noCoresPayload = some f ∧
      listEntryForJSON "p" "s" (.obj noCoresPayload) = .error (.schemaError f) :=
  C2_schema_error_first_missing "p" "s" noCoresPayload
    ⟨"cores", by decide, by decide⟩ (.inr (by decide))

/-- Claim C3: for every payload containing all required fields, decoding
fails with `ValidationError` when `arch` is outside `{x86_64, aarch64}`, and
succeeds when `arch` is one of them. -/
theorem C3_arch_validation (path storage : String) (o : JObj)
    (hall : ∀ k, k ∈ requiredFields → o.containsKey k = true) :
    (VALID_ARCHES.contains ((o.value KEY_ARCH).asQString) = false →
      listEntryForJSON path storage (.obj o) = .error .validationError) ∧
    (VALID_ARCHES.contains ((o.value KEY_ARCH).asQString) = true →
      ∃ d, listEntryForJSON path storage (.obj o) = .ok d) := by
  have h1 := hall "description" (by simp [requiredFields])
  have h2 := hall "arch" (by simp [requiredFields])
  have h3 := hall "cores" (by simp [requiredFields])
  have h4 := hall "mem" (by simp [requiredFields])
  have h5 := hall "hdd" (by simp [requiredFields])
  have h6 := hall "dvd" (by simp [requiredFields])
  have h7 := hall "flash1" (by simp [requiredFields])
  have h8 := hall "flash2" (by simp [requiredFields])
  constructor
  · intro hbad
    have hmem : (o.value "arch").asQString ∉ VALID_ARCHES := by
      rw [KEY_ARCH] at hbad
      simpa using hbad
    simp [listEntryForJSON, KEY_DESC, KEY_ARCH, KEY_CORES, KEY_MEM, KEY_HDD, KEY_DVD,
      KEY_FLASH1, KEY_FLASH2, h1, h2, h3, h4, h5, h6, h7, h8, hmem]
  · intro hgood
    have hmem : (o.value "arch").asQString ∈ VALID_ARCHES := by
      rw [KEY_ARCH] at hgood
      simpa using hgood
    refine ⟨{ path := path
              storage := storage
              description := (o.value KEY_DESC).asQString
              arch := (o.value KEY_ARCH).asQString
              cores := (o.value KEY_CORES).asQString
              mem := (o.value KEY_MEM).asQString
              hdd := (o.value KEY_HDD).asQString
              dvd := (o.value KEY_DVD).asQString
              flash1 := (o.value KEY_FLASH1).asQString
              flash2 := (o.value KEY_FLASH2).asQString
              useVirglrenderer :=
                if o.containsKey KEY_VIRGLRENDERER then (o.value KEY_VIRGLRENDERER).asQBool
                else false
              enableFileSharing :=
                if o.containsKey KEY_ENABLEFILESHARING then (o.value KEY_ENABLEFILESHARING).asQBool
                else false
              externalWindowOnly :=
                if o.containsKey KEY_EXTERNAL_WINDOW_ONLY then
                  some ((o.value KEY_EXTERNAL_WINDOW_ONLY).asQBool)
                else none }, ?_⟩
    simp [listEntryForJSON, KEY_DESC, KEY_ARCH, KEY_CORES, KEY_MEM,
      KEY_HDD, KEY_DVD, KEY_FLASH1, KEY_FLASH2, h1, h2, h3, h4, h5, h6, h7, h8, hmem]

/-- Witness for C3: the concrete payload with `arch = "mips"` is rejected
with `ValidationError`; the same payload with `arch = "aarch64"` decodes. -/
theorem C3_arch_validation_witness :
    listEntryForJSON "p" "s" (.obj fullMipsPayload) = .error .validationError ∧
    ∃ d, listEntryForJSON "p" "s" (.obj fullPayload) = .ok d :=
  ⟨(C3_arch_validation "p" "s" fullMipsPayload (by decide)).1 (by decide),
   (C3_arch_validation "p" "s" fullPayload (by decide)).2 (by decide)⟩

/-- Claim C6: `canVirtualize targetArch` is true exactly when the KVM device
node exists, is readable and writable, and `targetArch` equals the host's
native architecture normalized into the canonical enumeration (`arm64`
normalizes to `aarch64`); in particular it is false without the device even
on a matching `aarch64` host. -/
theorem C6_canVirtualize_iff (h : HostEnv) (arch : String) :
    (canVirtualize h arch =
      (h.kvmExists && h.kvmReadable && h.kvmWritable &&
        (hostNormalize h.currentCpuArch == arch))) ∧
    (h.kvmExists = false → canVirtualize h arch = false) := by
  constructor
  · simp only [canVirtualize, hostNormalize]
    cases h.kvmExists <;> cases h.kvmReadable <;> cases h.kvmWritable <;> simp
  · intro hk
    simp [canVirtualize, hk]

/-- Witness for C6: on an `aarch64` host lacking `/dev/kvm`,
`canVirtualize "aarch64"` is false. -/
theorem C6_canVirtualize_witness : canVirtualize noKvmHost "aarch64" = false :=
  (C6_canVirtualize_iff noKvmHost "aarch64").2 rfl

/-- Claim C7: the scan keeps exactly the successfully decoded entries, and
an entry whose decoding fails is skipped without affecting the rest of the
scan. -/
theorem C7_listAll_skips_corrupt :
    (∀ entries : List (String × String × Payload),
      refreshVMs entries =
        entries.filterMap (fun e => (listEntryForJSON e.1 e.2.1 e.2.2).toOption)) ∧
    (∀ (pre post : List (String × String × Payload)) (entry : String × String × Payload),
      (∃ err, listEntryForJSON entry.1 entry.2.1 entry.2.2 = .error err) →
      refreshVMs (pre ++ entry :: post) = refreshVMs (pre ++ post)) := by
  have hmain : ∀ l : List (String × String × Payload),
      refreshVMs l = l.filterMap (fun e => (listEntryForJSON e.1 e.2.1 e.2.2).toOption) := by
    intro l
    induction l with
    | nil => rfl
    | cons e t ih =>
      obtain ⟨path, storage, p⟩ := e
      cases hdec : listEntryForJSON path storage p with
      | ok vm => simp [refreshVMs, hdec, Except.toOption, ih]
      | error err => simp [refreshVMs, hdec, Except.toOption, ih]
  refine ⟨hmain, ?_⟩
  rintro pre post entry ⟨err, herr⟩
  rw [hmain, hmain]
  simp [List.filterMap_append, List.filterMap_cons, herr, Except.toOption]

/-- Witness for C7: the scan over one valid entry, one empty metadata file
and another valid entry equals the scan without the empty one. -/
theorem C7_listAll_skips_corrupt_witness :
    refreshVMs [scanGood1, scanEmpty, scanGood2] = refreshVMs [scanGood1, scanGood2] :=
  C7_listAll_skips_corrupt.2 [scanGood1] [scanGood2] scanEmpty
    ⟨.formatError "illegal value", rfl⟩

/-- Claim C8: in every successfully decoded record, each optional boolean
(`useVirglrenderer`, `enableFileSharing`, `externalWindowOnly`) is false when
its key is absent from the payload (for `externalWindowOnly` the key is not
even inserted in the map, and the record-level value read from the map is
false). -/
theorem C8_optional_booleans_default (path storage : String) (o : JObj) (d : DecodedVM)
    (hok : listEntryForJSON path storage (.obj o) = .ok d) :
    (o.containsKey KEY_VIRGLRENDERER = false → (fromQml d).useVirglrenderer = false) ∧
    (o.containsKey KEY_ENABLEFILESHARING = false → (fromQml d).enableFileSharing = false) ∧
    (o.containsKey KEY_EXTERNAL_WINDOW_ONLY = false →
      d.externalWindowOnly = none ∧ (fromQml d).externalWindowOnly = false) := by
  cases h1 : o.containsKey "description" with
  | false => simp [listEntryForJSON, KEY_DESC, h1] at hok
  | true =>
  cases h2 : o.containsKey "arch" with
  | false => simp [listEntryForJSON, KEY_DESC, KEY_ARCH, h1, h2] at hok
  | true =>
  by_cases hmem : (o.value "arch").asQString ∈ VALID_ARCHES
  case neg =>
    simp [listEntryForJSON, KEY_DESC, KEY_ARCH, h1, h2, hmem] at hok
  case pos =>
  cases h3 : o.containsKey "cores" with
  | false => simp [listEntryForJSON, KEY_DESC, KEY_ARCH, KEY_CORES, h1, h2, h3, hmem] at hok
  | true =>
  cases h4 : o.containsKey "mem" with
  | false =>
    simp [listEntryForJSON, KEY_DESC, KEY_ARCH, KEY_CORES, KEY_MEM,
      h1, h2, h3, h4, hmem] at hok
  | true =>
  cases h5 : o.containsKey "hdd" with
  | false =>
    simp [listEntryForJSON, KEY_DESC, KEY_ARCH, KEY_CORES, KEY_MEM, KEY_HDD,
      h1, h2, h3, h4, h5, hmem] at hok
  | true =>
  cases h6 : o.containsKey "dvd" with
  | false =>
    simp [listEntryForJSON, KEY_DESC, KEY_ARCH, KEY_CORES, KEY_MEM, KEY_HDD, KEY_DVD,
      h1, h2, h3, h4, h5, h6, hmem] at hok
  | true =>
  cases h7 : o.containsKey "flash1" with
  | false =>
    simp [listEntryForJSON, KEY_DESC, KEY_ARCH, KEY_CORES, KEY_MEM, KEY_HDD, KEY_DVD,
      KEY_FLASH1, h1, h2, h3, h4, h5, h6, h7, hmem] at hok
  | true =>
  cases h8 : o.containsKey "flash2" with
  | false =>
    simp [listEntryForJSON, KEY_DESC, KEY_ARCH, KEY_CORES, KEY_MEM, KEY_HDD, KEY_DVD,
      KEY_FLASH1, KEY_FLASH2, h1, h2, h3, h4, h5, h6, h7, h8, hmem] at hok
  | true =>
  simp [listEntryForJSON, KEY_DESC, KEY_ARCH, KEY_CORES, KEY_MEM, KEY_HDD, KEY_DVD,
    KEY_FLASH1, KEY_FLASH2, h1, h2, h3, h4, h5, h6, h7, h8, hmem] at hok
  refine ⟨fun hc => ?_, fun hc => ?_, fun hc => ?_⟩
  · simp [fromQml, ← hok, hc]
  · simp [fromQml, ← hok, hc]
  · simp [fromQml, ← hok, hc]

/-- Witness for C8 at a concrete payload with no optional boolean keys. -/
theorem C8_optional_booleans_default_witness :
    (fromQml fullDecoded).useVirglrenderer = false ∧
    (fromQml fullDecoded).enableFileSharing = false ∧
    fullDecoded.externalWindowOnly = none ∧
    (fromQml fullDecoded).externalWindowOnly = false := by
  have h := C8_optional_booleans_default "p" "s" fullPayload fullDecoded (by decide)
  exact ⟨h.1 (by decide), h.2.1 (by decide),
    (h.2.2 (by decide)).1, (h.2.2 (by decide)).2⟩

/-- Claim C9 counterexample: for a record whose `externalWindowOnly` was
never set (it holds the default `false`), the encoder still emits the
`externalWindowOnly` key — contradicting the stated emission rule "no
default emitted unless previously set". -/
theorem C9_externalWindowOnly_emitted_counterexample :
    sampleMachine.externalWindowOnly = false ∧
    (machineToJSON sampleMachine).containsKey KEY_EXTERNAL_WINDOW_ONLY = true ∧
    (machineToJSON sampleMachine).value KEY_EXTERNAL_WINDOW_ONLY = .jbool false :=
  ⟨rfl, by decide, by decide⟩

/-- Claim C9 (amended): encoding always succeeds and emits exactly the eight
required fields plus the three optional booleans, with `cores` and `mem` in
textual (string) form; the `externalWindowOnly` key is always emitted, even
when it holds the (never-set) default `false`. -/
theorem C9_encode_emits_all_fields (m : Machine) :
    (∀ k, (machineToJSON m).containsKey k = true ↔
      k ∈ [KEY_DESC, KEY_ARCH, KEY_CORES, KEY_MEM, KEY_DVD, KEY_HDD, KEY_FLASH1,
           KEY_FLASH2, KEY_VIRGLRENDERER, KEY_ENABLEFILESHARING,
           KEY_EXTERNAL_WINDOW_ONLY]) ∧
    ((machineToJSON m).value KEY_CORES = .jstr (intToQString m.cores)) ∧
    ((machineToJSON m).value KEY_MEM = .jstr (intToQString m.mem)) ∧
    ((machineToJSON m).value KEY_EXTERNAL_WINDOW_ONLY = .jbool m.externalWindowOnly) := by
  refine ⟨fun k => ?_, ?_, ?_, ?_⟩
  · simp only [machineToJSON, JObj.containsKey_insertKey, KEY_DESC, KEY_ARCH, KEY_CORES,
      KEY_MEM, KEY_DVD, KEY_HDD, KEY_FLASH1, KEY_FLASH2, KEY_VIRGLRENDERER,
      KEY_ENABLEFILESHARING, KEY_EXTERNAL_WINDOW_ONLY]
    simp [JObj.containsKey, List.mem_cons]
    tauto
  · simp [machineToJSON, JObj.value_insertKey, KEY_DESC, KEY_ARCH, KEY_CORES,
      KEY_MEM, KEY_DVD, KEY_HDD, KEY_FLASH1, KEY_FLASH2, KEY_VIRGLRENDERER,
      KEY_ENABLEFILESHARING, KEY_EXTERNAL_WINDOW_ONLY]
  · simp [machineToJSON, JObj.value_insertKey, KEY_DESC, KEY_ARCH, KEY_CORES,
      KEY_MEM, KEY_DVD, KEY_HDD, KEY_FLASH1, KEY_FLASH2, KEY_VIRGLRENDERER,
      KEY_ENABLEFILESHARING, KEY_EXTERNAL_WINDOW_ONLY]
  · simp [machineToJSON, JObj.value_insertKey, KEY_DESC, KEY_ARCH, KEY_CORES,
      KEY_MEM, KEY_DVD, KEY_HDD, KEY_FLASH1, KEY_FLASH2, KEY_VIRGLRENDERER,
      KEY_ENABLEFILESHARING, KEY_EXTERNAL_WINDOW_ONLY]

/-- Claim C10: `editVM` succeeds exactly when the metadata file can be
opened for writing, rewrites only `<storage>/info.json`, and on failure
leaves the filesystem untouched. -/
theorem C10_editVM_frame (env : QtEnv) (fs : FS) (m : Machine) :
    ((editVM env fs m).1 = true ↔ env.openRWOk (m.storage ++ "/info.json") = true) ∧
    (∀ p, p ≠ m.storage ++ "/info.json" →
      ((editVM env fs m).2).read p = fs.read p) ∧
    ((editVM env fs m).1 = true →
      ((editVM env fs m).2).read (m.storage ++ "/info.json")
        = some (.jsonDoc (machineToJSON m))) ∧
    ((editVM env fs m).1 = false → (editVM env fs m).2 = fs) := by
  cases henv : env.openRWOk (m.storage ++ "/info.json") with
  | true =>
    refine ⟨by simp [editVM, henv], ?_, ?_, ?_⟩
    · intro p hp
      simp only [editVM, henv, if_true, ite_true]
      exact FS.read_write_ne fs _ _ hp
    · intro _
      simp only [editVM, henv, if_true, ite_true]
      exact FS.read_write_self fs _ _
    · intro hfalse
      simp [editVM, henv] at hfalse
  | false =>
    simp [editVM, henv]

/-- Witness for C10: concretely, editing writes the metadata file and leaves
an unrelated file (a firmware source asset) untouched. -/
theorem C10_editVM_frame_witness :
    (editVM okEnv assetsFS sampleMachine).2.read (sampleMachine.storage ++ "/info.json")
      = some (.jsonDoc (machineToJSON sampleMachine)) ∧
    (editVM okEnv assetsFS sampleMachine).2.read (efiFwSrc "/app" "x86_64")
      = assetsFS.read (efiFwSrc "/app" "x86_64") :=
  ⟨(C10_editVM_frame okEnv assetsFS sampleMachine).2.2.1 (by decide),
   (C10_editVM_frame okEnv assetsFS sampleMachine).2.1 _ (by decide)⟩

/-- Claim C5: when the source firmware assets exist (and Qt file primitives
are permitted), provisioning the firmware pair a second time succeeds
without error and leaves exactly one firmware-code file and one NVRAM file,
each a copy of its source asset; the second run removes the existing
destination first and then performs the copy; and a failed removal of a
stale destination is only logged, with the copy still attempted. -/
theorem C5_firmware_provisioning_idempotent
    (env : QtEnv) (pwd : String) (fs : FS) (m : Machine) (cFw cNv : FData)
    (hrem : ∀ t, env.removeOk t = true)
    (hcopy : ∀ s t, env.copyOk s t = true)
    (hsrcFw : fs.read (efiFwSrc pwd m.arch) = some cFw)
    (hsrcNv : fs.read (efiVarsSrc pwd m.arch) = some cNv)
    (hdstFw : fs.fileExists (efiFwDst m.storage) = false)
    (hdstNv : fs.fileExists (efiVarsDst m.storage) = false)
    (hne1 : efiFwDst m.storage ≠ efiFwSrc pwd m.arch)
    (hne2 : efiVarsDst m.storage ≠ efiFwSrc pwd m.arch)
    (hne3 : efiFwDst m.storage ≠ efiVarsSrc pwd m.arch)
    (hne4 : efiVarsDst m.storage ≠ efiVarsSrc pwd m.arch)
    (hne5 : efiVarsDst m.storage ≠ efiFwDst m.storage) :
    let s1 := resetEFIFirmware env pwd fs m
    let s2 := resetEFINVRAM env pwd s1.fs s1.machine
    let s3 := resetEFIFirmware env pwd s2.fs s2.machine
    let s4 := resetEFINVRAM env pwd s3.fs s3.machine
    (s1.ok = true ∧ s2.ok = true) ∧
    (s3.ok = true ∧ s4.ok = true) ∧
    (s4.fs.countAt (efiFwDst m.storage) = 1 ∧
      s4.fs.read (efiFwDst m.storage) = some cFw ∧
      s4.fs.countAt (efiVarsDst m.storage) = 1 ∧
      s4.fs.read (efiVarsDst m.storage) = some cNv) ∧
    (s3.trace = [.debugRemoving (efiFwDst m.storage),
                 .copyAttempt (efiFwSrc pwd m.arch) (efiFwDst m.storage)] ∧
     s4.trace = [.debugRemoving (efiVarsDst m.storage),
                 .copyAttempt (efiVarsSrc pwd m.arch) (efiVarsDst m.storage)]) ∧
    (∀ (env2 : QtEnv) (fs2 : FS) (m2 : Machine),
      fs2.fileExists (efiFwDst m2.storage) = true →
      env2.removeOk (efiFwDst m2.storage) = false →
      (resetEFIFirmware env2 pwd fs2 m2).trace =
        [.debugRemoving (efiFwDst m2.storage),
         .warnRemoveFailed (efiFwDst m2.storage),
         .copyAttempt (efiFwSrc pwd m2.arch) (efiFwDst m2.storage),
         .warnCopyFailed (efiFwSrc pwd m2.arch) (efiFwDst m2.storage)]) := by
  intro s1 s2 s3 s4
  have e1 : s1 =
      { ok := true, fs := fs.write (efiFwDst m.storage) cFw
        machine := { m with flash1 := efiFwDst m.storage }
        trace := [.copyAttempt (efiFwSrc pwd m.arch) (efiFwDst m.storage)] } :=
    resetEFIFirmware_done env pwd fs m hdstFw hsrcFw (hcopy _ _)
  have hdst2 : (fs.write (efiFwDst m.storage) cFw).fileExists (efiVarsDst m.storage)
      = false := by
    rw [FS.fileExists_write_ne fs _ _ hne5]
    exact hdstNv
  have hsrc2 : (fs.write (efiFwDst m.storage) cFw).read (efiVarsSrc pwd m.arch)
      = some cNv := by
    rw [FS.read_write_ne fs _ _ (Ne.symm hne3)]
    exact hsrcNv
  have e2 : s2 =
      { ok := true
        fs := (fs.write (efiFwDst m.storage) cFw).write (efiVarsDst m.storage) cNv
        machine := { m with flash1 := efiFwDst m.storage, flash2 := efiVarsDst m.storage }
        trace := [.copyAttempt (efiVarsSrc pwd m.arch) (efiVarsDst m.storage)] } := by
    show resetEFINVRAM env pwd s1.fs s1.machine = _
    rw [e1]
    exact resetEFINVRAM_done env pwd _ _ hdst2 hsrc2 (hcopy _ _)
  have hdst3 : ((fs.write (efiFwDst m.storage) cFw).write (efiVarsDst m.storage)
      cNv).fileExists (efiFwDst m.storage) = true := by
    rw [FS.fileExists_write_ne _ _ _ (Ne.symm hne5)]
    exact FS.fileExists_write_self fs _ _
  have hsrc3 : (((fs.write (efiFwDst m.storage) cFw).write (efiVarsDst m.storage)
      cNv).removeFile (efiFwDst m.storage)).read (efiFwSrc pwd m.arch) = some cFw := by
    rw [FS.read_removeFile_ne _ _ (Ne.symm hne1),
      FS.read_write_ne _ _ _ (Ne.symm hne2),
      FS.read_write_ne _ _ _ (Ne.symm hne1)]
    exact hsrcFw
  have e3 : s3 =
      { ok := true
        fs := (((fs.write (efiFwDst m.storage) cFw).write (efiVarsDst m.storage)
          cNv).removeFile (efiFwDst m.storage)).write (efiFwDst m.storage) cFw
        machine := { m with flash1 := efiFwDst m.storage, flash2 := efiVarsDst m.storage }
        trace := [.debugRemoving (efiFwDst m.storage),
                  .copyAttempt (efiFwSrc pwd m.arch) (efiFwDst m.storage)] } := by
    show resetEFIFirmware env pwd s2.fs s2.machine = _
    rw [e2]
    exact resetEFIFirmware_rerun env pwd _ _ hdst3 (hrem _) hsrc3 (hcopy _ _)
  have hdst4 : ((((fs.write (efiFwDst m.storage) cFw).write (efiVarsDst m.storage)
      cNv).removeFile (efiFwDst m.storage)).write (efiFwDst m.storage)
      cFw).fileExists (efiVarsDst m.storage) = true := by
    rw [FS.fileExists_write_ne _ _ _ hne5, FS.fileExists_removeFile_ne _ _ hne5]
    exact FS.fileExists_write_self _ _ _
  have hsrc4 : (((((fs.write (efiFwDst m.storage) cFw).write (efiVarsDst m.storage)
      cNv).removeFile (efiFwDst m.storage)).write (efiFwDst m.storage)
      cFw).removeFile (efiVarsDst m.storage)).read (efiVarsSrc pwd m.arch)
      = some cNv := by
    rw [FS.read_removeFile_ne _ _ (Ne.symm hne4),
      FS.read_write_ne _ _ _ (Ne.symm hne3),
      FS.read_removeFile_ne _ _ (Ne.symm hne3),
      FS.read_write_ne _ _ _ (Ne.symm hne4),
      FS.read_write_ne _ _ _ (Ne.symm hne3)]
    exact hsrcNv
  have e4 : s4 =
      { ok := true
        fs := (((((fs.write (efiFwDst m.storage) cFw).write (efiVarsDst m.storage)
          cNv).removeFile (efiFwDst m.storage)).write (efiFwDst m.storage)
          cFw).removeFile (efiVarsDst m.storage)).write (efiVarsDst m.storage) cNv
        machine := { m with flash1 := efiFwDst m.storage, flash2 := efiVarsDst m.storage }
        trace := [.debugRemoving (efiVarsDst m.storage),
                  .copyAttempt (efiVarsSrc pwd m.arch) (efiVarsDst m.storage)] } := by
    show resetEFINVRAM env pwd s3.fs s3.machine = _
    rw [e3]
    exact resetEFINVRAM_rerun env pwd _ _ hdst4 (hrem _) hsrc4 (hcopy _ _)
  refine ⟨⟨by rw [e1], by rw [e2]⟩, ⟨by rw [e3], by rw [e4]⟩, ⟨?_, ?_, ?_, ?_⟩,
    ⟨by rw [e3], by rw [e4]⟩, ?_⟩
  · rw [e4]
    show ((((((fs.write (efiFwDst m.storage) cFw).write (efiVarsDst m.storage)
      cNv).removeFile (efiFwDst m.storage)).write (efiFwDst m.storage)
      cFw).removeFile (efiVarsDst m.storage)).write (efiVarsDst m.storage)
      cNv).countAt (efiFwDst m.storage) = 1
    rw [FS.countAt_write_ne _ _ _ (Ne.symm hne5),
      FS.countAt_removeFile_ne _ _ (Ne.symm hne5)]
    exact FS.countAt_write_self _ _ _
  · rw [e4]
    show ((((((fs.write (efiFwDst m.storage) cFw).write (efiVarsDst m.storage)
      cNv).removeFile (efiFwDst m.storage)).write (efiFwDst m.storage)
      cFw).removeFile (efiVarsDst m.storage)).write (efiVarsDst m.storage)
      cNv).read (efiFwDst m.storage) = some cFw
    rw [FS.read_write_ne _ _ _ (Ne.symm hne5),
      FS.read_removeFile_ne _ _ (Ne.symm hne5)]
    exact FS.read_write_self _ _ _
  · rw [e4]
    exact FS.countAt_write_self _ _ _
  · rw [e4]
    exact FS.read_write_self _ _ _
  · intro env2 fs2 m2 hex hrem2
    simp [resetEFIFirmware, QtEnv.fileRemove, QtEnv.fileCopy, hex, hrem2]

/-- Witness for C5 at a concrete environment, filesystem and machine. -/
theorem C5_firmware_provisioning_idempotent_witness :
    let s1 := resetEFIFirmware okEnv "/app" assetsFS sampleMachine
    let s2 := resetEFINVRAM okEnv "/app" s1.fs s1.machine
    let s3 := resetEFIFirmware okEnv "/app" s2.fs s2.machine
    let s4 := resetEFINVRAM okEnv "/app" s3.fs s3.machine
    (s3.ok = true ∧ s4.ok = true) ∧
    (s4.fs.countAt (efiFwDst sampleMachine.storage) = 1 ∧
      s4.fs.read (efiFwDst sampleMachine.storage) = some (.blob "fw-code") ∧
      s4.fs.countAt (efiVarsDst sampleMachine.storage) = 1 ∧
      s4.fs.read (efiVarsDst sampleMachine.storage) = some (.blob "nvram-template")) := by
  have h := C5_firmware_provisioning_idempotent okEnv "/app" assetsFS sampleMachine
    (.blob "fw-code") (.blob "nvram-template")
    (fun _ => rfl) (fun _ _ => rfl)
    (by decide) (by decide) (by decide) (by decide)
    (by decide) (by decide) (by decide) (by decide) (by decide)
  exact ⟨h.2.1, h.2.2.1⟩

/-- Claim C4: whenever disk provisioning or either firmware-provisioning
step fails, `createVM` returns an error, the metadata file is never written
(it exists afterwards exactly when every provisioning step and the final
open succeed), and nothing is rolled back: the fresh directory stays in the
directory set and every asset provisioned before the failing step stays on
disk. -/
theorem C4_create_no_rollback
    (env : QtEnv) (appData pwd uuid : String) (d : Disk) (m : Machine) (hddSize : Int)
    (hmk : env.mkpathOk (appData ++ "/" ++ uuid) = true)
    (hfreshFw : d.files.fileExists (efiFwDst (appData ++ "/" ++ uuid)) = false)
    (hfreshNv : d.files.fileExists (efiVarsDst (appData ++ "/" ++ uuid)) = false)
    (hfreshJson : d.files.fileExists (appData ++ "/" ++ uuid ++ "/info.json") = false)
    (hs1 : efiFwSrc pwd m.arch ≠ appData ++ "/" ++ uuid ++ "/hdd.qcow2")
    (hs2 : efiVarsSrc pwd m.arch ≠ appData ++ "/" ++ uuid ++ "/hdd.qcow2")
    (hs3 : efiVarsSrc pwd m.arch ≠ efiFwDst (appData ++ "/" ++ uuid)) :
    let C := createVM env appData pwd uuid d m hddSize
    let fwProvOk := (∃ c, d.files.read (efiFwSrc pwd m.arch) = some c) ∧
      env.copyOk (efiFwSrc pwd m.arch) (efiFwDst (appData ++ "/" ++ uuid)) = true
    let nvProvOk := (∃ c, d.files.read (efiVarsSrc pwd m.arch) = some c) ∧
      env.copyOk (efiVarsSrc pwd m.arch) (efiVarsDst (appData ++ "/" ++ uuid)) = true
    (¬(env.qemuImgExitCode = 0 ∧ fwProvOk ∧ nvProvOk) → C.ok = false) ∧
    ((appData ++ "/" ++ uuid) ∈ C.disk.dirs) ∧
    (env.qemuImgExitCode = 0 →
      C.disk.files.read (appData ++ "/" ++ uuid ++ "/hdd.qcow2")
        = some (env.qemuImgData hddSize)) ∧
    (env.qemuImgExitCode = 0 → fwProvOk →
      ∀ c, d.files.read (efiFwSrc pwd m.arch) = some c →
        C.disk.files.read (efiFwDst (appData ++ "/" ++ uuid)) = some c) ∧
    (C.disk.files.fileExists (appData ++ "/" ++ uuid ++ "/info.json") = true ↔
      (env.qemuImgExitCode = 0 ∧ fwProvOk ∧ nvProvOk ∧
        env.openRWOk (appData ++ "/" ++ uuid ++ "/info.json") = true)) := by
  intro C fwProvOk nvProvOk
  have nHddFw : appData ++ "/" ++ uuid ++ "/hdd.qcow2" ≠ efiFwDst (appData ++ "/" ++ uuid) :=
    string_append_ne (by decide)
  have nHddNv : appData ++ "/" ++ uuid ++ "/hdd.qcow2" ≠ efiVarsDst (appData ++ "/" ++ uuid) :=
    string_append_ne (by decide)
  have nHddJs : appData ++ "/" ++ uuid ++ "/hdd.qcow2" ≠ appData ++ "/" ++ uuid ++ "/info.json" :=
    string_append_ne (by decide)
  have nFwNv : efiFwDst (appData ++ "/" ++ uuid) ≠ efiVarsDst (appData ++ "/" ++ uuid) :=
    string_append_ne (by decide)
  have nFwJs : efiFwDst (appData ++ "/" ++ uuid) ≠ appData ++ "/" ++ uuid ++ "/info.json" :=
    string_append_ne (by decide)
  have nNvJs : efiVarsDst (appData ++ "/" ++ uuid) ≠ appData ++ "/" ++ uuid ++ "/info.json" :=
    string_append_ne (by decide)
  have hD : C.disk.dirs = (if d.dirs.contains (appData ++ "/" ++ uuid) then d.dirs
      else if env.mkpathOk (appData ++ "/" ++ uuid) then
        (appData ++ "/" ++ uuid) :: d.dirs
      else d.dirs) := by
    show (createVM env appData pwd uuid d m hddSize).disk.dirs = _
    simp only [createVM]
    split
    · rfl
    · exact createVMafterDisk_dirs _ _ _ _ _ _
  have hdirs : (appData ++ "/" ++ uuid) ∈ C.disk.dirs := by
    rw [hD]
    by_cases hc : d.dirs.contains (appData ++ "/" ++ uuid) = true
    · rw [if_pos hc]
      simpa using hc
    · rw [if_neg hc, if_pos hmk]
      exact List.mem_cons_self _ _
  by_cases hq : env.qemuImgExitCode = 0
  case neg =>
    have eC : C =
        ({ ok := false,
           disk := { files := d.files,
                     dirs := if d.dirs.contains (appData ++ "/" ++ uuid) then d.dirs
                       else if env.mkpathOk (appData ++ "/" ++ uuid) then
                         (appData ++ "/" ++ uuid) :: d.dirs
                       else d.dirs },
           machine := { m with storage := appData ++ "/" ++ uuid } } : CreateOut) := by
      show createVM env appData pwd uuid d m hddSize = _
      simp only [createVM]
      rw [if_pos hq]
    refine ⟨fun _ => by rw [eC], hdirs, fun hq2 => absurd hq2 hq,
      fun hq2 => absurd hq2 hq, ?_⟩
    rw [eC]
    simp only []
    simp [hfreshJson, hq]
  case pos =>
    have eC0 : C = createVMafterDisk env pwd (appData ++ "/" ++ uuid)
        (d.files.write (appData ++ "/" ++ uuid ++ "/hdd.qcow2") (env.qemuImgData hddSize))
        (if d.dirs.contains (appData ++ "/" ++ uuid) then d.dirs
         else if env.mkpathOk (appData ++ "/" ++ uuid) then
           (appData ++ "/" ++ uuid) :: d.dirs
         else d.dirs)
        { m with storage := appData ++ "/" ++ uuid,
                 hdd := appData ++ "/" ++ uuid ++ "/hdd.qcow2" } :=
      createVM_qemuOk env appData pwd uuid d m hddSize hq
    have hfe1 : (d.files.write (appData ++ "/" ++ uuid ++ "/hdd.qcow2")
        (env.qemuImgData hddSize)).fileExists (efiFwDst (appData ++ "/" ++ uuid))
        = false := by
      rw [FS.fileExists_write_ne _ _ _ (Ne.symm nHddFw)]
      exact hfreshFw
    have hre1 : (d.files.write (appData ++ "/" ++ uuid ++ "/hdd.qcow2")
        (env.qemuImgData hddSize)).read (efiFwSrc pwd m.arch)
        = d.files.read (efiFwSrc pwd m.arch) :=
      FS.read_write_ne _ _ _ hs1
    cases hfw : d.files.read (efiFwSrc pwd m.arch) with
    | none =>
      have efw := resetEFIFirmware_failed env pwd
        (d.files.write (appData ++ "/" ++ uuid ++ "/hdd.qcow2") (env.qemuImgData hddSize))
        { m with storage := appData ++ "/" ++ uuid,
                 hdd := appData ++ "/" ++ uuid ++ "/hdd.qcow2" }
        hfe1 (Or.inl (hre1.trans hfw))
      have hok1 : (resetEFIFirmware env pwd
          (d.files.write (appData ++ "/" ++ uuid ++ "/hdd.qcow2") (env.qemuImgData hddSize))
          { m with storage := appData ++ "/" ++ uuid,
                   hdd := appData ++ "/" ++ uuid ++ "/hdd.qcow2" }).ok = false := by
        rw [efw]
      have hCok : C.ok = false := by
        rw [eC0, createVMafterDisk_fwFail _ _ _ _ _ _ hok1]
      have hCfiles : C.disk.files =
          d.files.write (appData ++ "/" ++ uuid ++ "/hdd.qcow2") (env.qemuImgData hddSize) := by
        rw [eC0, createVMafterDisk_fwFail _ _ _ _ _ _ hok1, efw]
      refine ⟨fun _ => hCok, hdirs, fun _ => ?_, fun _ hfwOk c hc => ?_, ?_⟩
      · rw [hCfiles]
        exact FS.read_write_self _ _ _
      · exfalso
        obtain ⟨⟨c0, hc0⟩, _⟩ := hfwOk
        rw [hfw] at hc0
        exact Option.noConfusion hc0
      · rw [hCfiles, FS.fileExists_write_ne _ _ _ (Ne.symm nHddJs), hfreshJson]
        constructor
        · intro hx
          exact absurd hx (by simp)
        · rintro ⟨_, ⟨⟨c0, hc0⟩, _⟩, _⟩
          rw [hfw] at hc0
          exact Option.noConfusion hc0
    | some cfw =>
    cases hfc : env.copyOk (efiFwSrc pwd m.arch) (efiFwDst (appData ++ "/" ++ uuid)) with
    | false =>
      have efw := resetEFIFirmware_failed env pwd
        (d.files.write (appData ++ "/" ++ uuid ++ "/hdd.qcow2") (env.qemuImgData hddSize))
        { m with storage := appData ++ "/" ++ uuid,
                 hdd := appData ++ "/" ++ uuid ++ "/hdd.qcow2" }
        hfe1 (Or.inr hfc)
      have hok1 : (resetEFIFirmware env pwd
          (d.files.write (appData ++ "/" ++ uuid ++ "/hdd.qcow2") (env.qemuImgData hddSize))
          { m with storage := appData ++ "/" ++ uuid,
                   hdd := appData ++ "/" ++ uuid ++ "/hdd.qcow2" }).ok = false := by
        rw [efw]
      have hCok : C.ok = false := by
        rw [eC0, createVMafterDisk_fwFail _ _ _ _ _ _ hok1]
      have hCfiles : C.disk.files =
          d.files.write (appData ++ "/" ++ uuid ++ "/hdd.qcow2") (env.qemuImgData hddSize) := by
        rw [eC0, createVMafterDisk_fwFail _ _ _ _ _ _ hok1, efw]
      refine ⟨fun _ => hCok, hdirs, fun _ => ?_, fun _ hfwOk c hc => ?_, ?_⟩
      · rw [hCfiles]
        exact FS.read_write_self _ _ _
      · exfalso
        obtain ⟨_, hcp⟩ := hfwOk
        rw [hfc] at hcp
        exact Bool.noConfusion hcp
      · rw [hCfiles, FS.fileExists_write_ne _ _ _ (Ne.symm nHddJs), hfreshJson]
        constructor
        · intro hx
          exact absurd hx (by simp)
        · rintro ⟨_, ⟨_, hcp⟩, _⟩
          rw [hfc] at hcp
          exact Bool.noConfusion hcp
    | true =>
      have efw := resetEFIFirmware_done env pwd
        (d.files.write (appData ++ "/" ++ uuid ++ "/hdd.qcow2") (env.qemuImgData hddSize))
        { m with storage := appData ++ "/" ++ uuid,
                 hdd := appData ++ "/" ++ uuid ++ "/hdd.qcow2" }
        hfe1 (hre1.trans hfw) hfc
      have hok1 : (resetEFIFirmware env pwd
          (d.files.write (appData ++ "/" ++ uuid ++ "/hdd.qcow2") (env.qemuImgData hddSize))
          { m with storage := appData ++ "/" ++ uuid,
                   hdd := appData ++ "/" ++ uuid ++ "/hdd.qcow2" }).ok = true := by
        rw [efw]
      have hfe2 : ((d.files.write (appData ++ "/" ++ uuid ++ "/hdd.qcow2")
          (env.qemuImgData hddSize)).write (efiFwDst (appData ++ "/" ++ uuid))
          cfw).fileExists (efiVarsDst (appData ++ "/" ++ uuid)) = false := by
        rw [FS.fileExists_write_ne _ _ _ (Ne.symm nFwNv),
          FS.fileExists_write_ne _ _ _ (Ne.symm nHddNv)]
        exact hfreshNv
      have hre2 : ((d.files.write (appData ++ "/" ++ uuid ++ "/hdd.qcow2")
          (env.qemuImgData hddSize)).write (efiFwDst (appData ++ "/" ++ uuid))
          cfw).read (efiVarsSrc pwd m.arch) = d.files.read (efiVarsSrc pwd m.arch) := by
        rw [FS.read_write_ne _ _ _ hs3, FS.read_write_ne _ _ _ hs2]
      cases hnv : d.files.read (efiVarsSrc pwd m.arch) with
      | none =>
        have env2 : resetEFINVRAM env pwd
            (resetEFIFirmware env pwd
              (d.files.write (appData ++ "/" ++ uuid ++ "/hdd.qcow2") (env.qemuImgData hddSize))
              { m with storage := appData ++ "/" ++ uuid,
                       hdd := appData ++ "/" ++ uuid ++ "/hdd.qcow2" }).fs
            (resetEFIFirmware env pwd
              (d.files.write (appData ++ "/" ++ uuid ++ "/hdd.qcow2") (env.qemuImgData hddSize))
              { m with storage := appData ++ "/" ++ uuid,
                       hdd := appData ++ "/" ++ uuid ++ "/hdd.qcow2" }).machine =
            ({ ok := false,
               fs := (d.files.write (appData ++ "/" ++ uuid ++ "/hdd.qcow2")
                 (env.qemuImgData hddSize)).write (efiFwDst (appData ++ "/" ++ uuid)) cfw,
               machine := { m with
                            storage := appData ++ "/" ++ uuid,
                            hdd := appData ++ "/" ++ uuid ++ "/hdd.qcow2",
                            flash1 := efiFwDst (appData ++ "/" ++ uuid) },
               trace := [.copyAttempt (efiVarsSrc pwd m.arch)
                           (efiVarsDst (appData ++ "/" ++ uuid)),
                         .warnCopyFailed (efiVarsSrc pwd m.arch)
                           (efiVarsDst (appData ++ "/" ++ uuid))] } : StepOut) := by
          rw [efw]
          exact resetEFINVRAM_failed env pwd _ _ hfe2 (Or.inl (hre2.trans hnv))
        have hok2 : (resetEFINVRAM env pwd
            (resetEFIFirmware env pwd
              (d.files.write (appData ++ "/" ++ uuid ++ "/hdd.qcow2") (env.qemuImgData hddSize))
              { m with storage := appData ++ "/" ++ uuid,
                       hdd := appData ++ "/" ++ uuid ++ "/hdd.qcow2" }).fs
            (resetEFIFirmware env pwd
              (d.files.write (appData ++ "/" ++ uuid ++ "/hdd.qcow2") (env.qemuImgData hddSize))
              { m with storage := appData ++ "/" ++ uuid,
                       hdd := appData ++ "/" ++ uuid ++ "/hdd.qcow2" }).machine).ok
            = false := by
          rw [env2]
        have hCok : C.ok = false := by
          rw [eC0, createVMafterDisk_nvFail _ _ _ _ _ _ hok1 hok2]
        have hCfiles : C.disk.files =
            (d.files.write (appData ++ "/" ++ uuid ++ "/hdd.qcow2")
              (env.qemuImgData hddSize)).write (efiFwDst (appData ++ "/" ++ uuid)) cfw := by
          rw [eC0, createVMafterDisk_nvFail _ _ _ _ _ _ hok1 hok2, env2]
        refine ⟨fun _ => hCok, hdirs, fun _ => ?_, fun _ _ c hc => ?_, ?_⟩
        · rw [hCfiles, FS.read_write_ne _ _ _ nHddFw]
          exact FS.read_write_self _ _ _
        · rw [hCfiles]
          have hcc := Option.some.inj hc
          subst hcc
          exact FS.read_write_self _ _ _
        · rw [hCfiles, FS.fileExists_write_ne _ _ _ (Ne.symm nFwJs),
            FS.fileExists_write_ne _ _ _ (Ne.symm nHddJs), hfreshJson]
          constructor
          · intro hx
            exact absurd hx (by simp)
          · rintro ⟨_, _, ⟨⟨c0, hc0⟩, _⟩, _⟩
            rw [hnv] at hc0
            exact Option.noConfusion hc0
      | some cnv =>
      cases hfc2 : env.copyOk (efiVarsSrc pwd m.arch) (efiVarsDst (appData ++ "/" ++ uuid)) with
      | false =>
        have env2 : resetEFINVRAM env pwd
            (resetEFIFirmware env pwd
              (d.files.write (appData ++ "/" ++ uuid ++ "/hdd.qcow2") (env.qemuImgData hddSize))
              { m with storage := appData ++ "/" ++ uuid,
                       hdd := appData ++ "/" ++ uuid ++ "/hdd.qcow2" }).fs
            (resetEFIFirmware env pwd
              (d.files.write (appData ++ "/" ++ uuid ++ "/hdd.qcow2") (env.qemuImgData hddSize))
              { m with storage := appData ++ "/" ++ uuid,
                       hdd := appData ++ "/" ++ uuid ++ "/hdd.qcow2" }).machine =
            ({ ok := false,
               fs := (d.files.write (appData ++ "/" ++ uuid ++ "/hdd.qcow2")
                 (env.qemuImgData hddSize)).write (efiFwDst (appData ++ "/" ++ uuid)) cfw,
               machine := { m with
                            storage := appData ++ "/" ++ uuid,
                            hdd := appData ++ "/" ++ uuid ++ "/hdd.qcow2",
                            flash1 := efiFwDst (appData ++ "/" ++ uuid) },
               trace := [.copyAttempt (efiVarsSrc pwd m.arch)
                           (efiVarsDst (appData ++ "/" ++ uuid)),
                         .warnCopyFailed (efiVarsSrc pwd m.arch)
                           (efiVarsDst (appData ++ "/" ++ uuid))] } : StepOut) := by
          rw [efw]
          exact resetEFINVRAM_failed env pwd _ _ hfe2 (Or.inr hfc2)
        have hok2 : (resetEFINVRAM env pwd
            (resetEFIFirmware env pwd
              (d.files.write (appData ++ "/" ++ uuid ++ "/hdd.qcow2") (env.qemuImgData hddSize))
              { m with storage := appData ++ "/" ++ uuid,
                       hdd := appData ++ "/" ++ uuid ++ "/hdd.qcow2" }).fs
            (resetEFIFirmware env pwd
              (d.files.write (appData ++ "/" ++ uuid ++ "/hdd.qcow2") (env.qemuImgData hddSize))
              { m with storage := appData ++ "/" ++ uuid,
                       hdd := appData ++ "/" ++ uuid ++ "/hdd.qcow2" }).machine).ok
            = false := by
          rw [env2]
        have hCok : C.ok = false := by
          rw [eC0, createVMafterDisk_nvFail _ _ _ _ _ _ hok1 hok2]
        have hCfiles : C.disk.files =
            (d.files.write (appData ++ "/" ++ uuid ++ "/hdd.qcow2")
              (env.qemuImgData hddSize)).write (efiFwDst (appData ++ "/" ++ uuid)) cfw := by
          rw [eC0, createVMafterDisk_nvFail _ _ _ _ _ _ hok1 hok2, env2]
        refine ⟨fun _ => hCok, hdirs, fun _ => ?_, fun _ _ c hc => ?_, ?_⟩
        · rw [hCfiles, FS.read_write_ne _ _ _ nHddFw]
          exact FS.read_write_self _ _ _
        · rw [hCfiles]
          have hcc := Option.some.inj hc
          subst hcc
          exact FS.read_write_self _ _ _
        · rw [hCfiles, FS.fileExists_write_ne _ _ _ (Ne.symm nFwJs),
            FS.fileExists_write_ne _ _ _ (Ne.symm nHddJs), hfreshJson]
          constructor
          · intro hx
            exact absurd hx (by simp)
          · rintro ⟨_, _, ⟨_, hcp⟩, _⟩
            rw [hfc2] at hcp
            exact Bool.noConfusion hcp
      | true =>
        have env2 : resetEFINVRAM env pwd
            (resetEFIFirmware env pwd
              (d.files.write (appData ++ "/" ++ uuid ++ "/hdd.qcow2") (env.qemuImgData hddSize))
              { m with storage := appData ++ "/" ++ uuid,
                       hdd := appData ++ "/" ++ uuid ++ "/hdd.qcow2" }).fs
            (resetEFIFirmware env pwd
              (d.files.write (appData ++ "/" ++ uuid ++ "/hdd.qcow2") (env.qemuImgData hddSize))
              { m with storage := appData ++ "/" ++ uuid,
                       hdd := appData ++ "/" ++ uuid ++ "/hdd.qcow2" }).machine =
            ({ ok := true,
               fs := ((d.files.write (appData ++ "/" ++ uuid ++ "/hdd.qcow2")
                 (env.qemuImgData hddSize)).write (efiFwDst (appData ++ "/" ++ uuid))
                 cfw).write (efiVarsDst (appData ++ "/" ++ uuid)) cnv,
               machine := { m with
                            storage := appData ++ "/" ++ uuid,
                            hdd := appData ++ "/" ++ uuid ++ "/hdd.qcow2",
                            flash1 := efiFwDst (appData ++ "/" ++ uuid),
                            flash2 := efiVarsDst (appData ++ "/" ++ uuid) },
               trace := [.copyAttempt (efiVarsSrc pwd m.arch)
                           (efiVarsDst (appData ++ "/" ++ uuid))] } : StepOut) := by
          rw [efw]
          exact resetEFINVRAM_done env pwd _ _ hfe2 (hre2.trans hnv) hfc2
        have hok2 : (resetEFINVRAM env pwd
            (resetEFIFirmware env pwd
              (d.files.write (appData ++ "/" ++ uuid ++ "/hdd.qcow2") (env.qemuImgData hddSize))
              { m with storage := appData ++ "/" ++ uuid,
                       hdd := appData ++ "/" ++ uuid ++ "/hdd.qcow2" }).fs
            (resetEFIFirmware env pwd
              (d.files.write (appData ++ "/" ++ uuid ++ "/hdd.qcow2") (env.qemuImgData hddSize))
              { m with storage := appData ++ "/" ++ uuid,
                       hdd := appData ++ "/" ++ uuid ++ "/hdd.qcow2" }).machine).ok
            = true := by
          rw [env2]
        cases hop : env.openRWOk (appData ++ "/" ++ uuid ++ "/info.json") with
        | false =>
          have hCok : C.ok = false := by
            rw [eC0, createVMafterDisk_openFail _ _ _ _ _ _ hok1 hok2 hop]
          have hCfiles : C.disk.files =
              ((d.files.write (appData ++ "/" ++ uuid ++ "/hdd.qcow2")
                (env.qemuImgData hddSize)).write (efiFwDst (appData ++ "/" ++ uuid))
                cfw).write (efiVarsDst (appData ++ "/" ++ uuid)) cnv := by
            rw [eC0, createVMafterDisk_openFail _ _ _ _ _ _ hok1 hok2 hop, env2]
          refine ⟨fun _ => hCok, hdirs, fun _ => ?_, fun _ _ c hc => ?_, ?_⟩
          · rw [hCfiles, FS.read_write_ne _ _ _ nHddNv, FS.read_write_ne _ _ _ nHddFw]
            exact FS.read_write_self _ _ _
          · rw [hCfiles, FS.read_write_ne _ _ _ nFwNv]
            have hcc := Option.some.inj hc
            subst hcc
            exact FS.read_write_self _ _ _
          · rw [hCfiles, FS.fileExists_write_ne _ _ _ (Ne.symm nNvJs),
              FS.fileExists_write_ne _ _ _ (Ne.symm nFwJs),
              FS.fileExists_write_ne _ _ _ (Ne.symm nHddJs), hfreshJson]
            constructor
            · intro hx
              exact absurd hx (by simp)
            · rintro ⟨_, _, _, hcp⟩
              exact Bool.noConfusion hcp
        | true =>
          have hCok : C.ok = true := by
            rw [eC0, createVMafterDisk_allOk _ _ _ _ _ _ hok1 hok2 hop]
          have hCfiles : C.disk.files =
              (((d.files.write (appData ++ "/" ++ uuid ++ "/hdd.qcow2")
                (env.qemuImgData hddSize)).write (efiFwDst (appData ++ "/" ++ uuid))
                cfw).write (efiVarsDst (appData ++ "/" ++ uuid)) cnv).write
                (appData ++ "/" ++ uuid ++ "/info.json")
                (.jsonDoc (machineToJSON
                  { m with
                    storage := appData ++ "/" ++ uuid,
                    hdd := appData ++ "/" ++ uuid ++ "/hdd.qcow2",
                    flash1 := efiFwDst (appData ++ "/" ++ uuid),
                    flash2 := efiVarsDst (appData ++ "/" ++ uuid) })) := by
            rw [eC0, createVMafterDisk_allOk _ _ _ _ _ _ hok1 hok2 hop, env2]
          refine ⟨fun hno => ?_, hdirs, fun _ => ?_, fun _ _ c hc => ?_, ?_⟩
          · exfalso
            exact hno ⟨hq, ⟨⟨cfw, hfw⟩, hfc⟩, ⟨⟨cnv, hnv⟩, hfc2⟩⟩
          · rw [hCfiles, FS.read_write_ne _ _ _ nHddJs, FS.read_write_ne _ _ _ nHddNv,
              FS.read_write_ne _ _ _ nHddFw]
            exact FS.read_write_self _ _ _
          · rw [hCfiles, FS.read_write_ne _ _ _ nFwJs, FS.read_write_ne _ _ _ nFwNv]
            have hcc := Option.some.inj hc
            subst hcc
            exact FS.read_write_self _ _ _
          · rw [hCfiles]
            constructor
            · intro _
              exact ⟨hq, ⟨⟨cfw, hfw⟩, hfc⟩, ⟨⟨cnv, hnv⟩, hfc2⟩, rfl⟩
            · intro _
              exact FS.fileExists_write_self _ _ _

/-- Witness for C4: with a failing `qemu-img`, the concrete create invocation
returns an error, keeps the fresh directory, and writes no metadata file. -/
theorem C4_create_no_rollback_witness :
    (createVM qemuFailEnv "/data" "/app" "uuid-1" { files := assetsFS, dirs := [] }
      sampleMachine 8).ok = false ∧
    ("/data" ++ "/" ++ "uuid-1") ∈ (createVM qemuFailEnv "/data" "/app" "uuid-1"
      { files := assetsFS, dirs := [] } sampleMachine 8).disk.dirs ∧
    (createVM qemuFailEnv "/data" "/app" "uuid-1" { files := assetsFS, dirs := [] }
      sampleMachine 8).disk.files.fileExists ("/data" ++ "/" ++ "uuid-1" ++ "/info.json")
      = false := by
  have h := C4_create_no_rollback qemuFailEnv "/data" "/app" "uuid-1"
    { files := assetsFS, dirs := [] } sampleMachine 8
    (by decide) (by decide) (by decide) (by decide) (by decide) (by decide) (by decide)
  refine ⟨h.1 (fun hcon => absurd hcon.1 (by decide)), h.2.1, ?_⟩
  cases hfe : (createVM qemuFailEnv "/data" "/app" "uuid-1"
      { files := assetsFS, dirs := [] } sampleMachine 8).disk.files.fileExists
      ("/data" ++ "/" ++ "uuid-1" ++ "/info.json") with
  | false => rfl
  | true =>
    obtain ⟨h0, _⟩ := h.2.2.2.2.mp hfe
    exact absurd h0 (by decide)

end PVMs
